import Mathlib

/-!
Auto-scale rules of the docker provisioner

A shallow embedding of `provision/docker/auto_scale_rule.go`: the rule record,
its normalisation, and the repository operations (`update`, `listAutoScaleRules`,
`deleteAutoScaleRule`, `autoScaleRuleForMetadata`) over an explicit store state
and an explicit configuration.

Conventions of the embedding

* A Go `float32`/`float64` is a value of the IEEE-754 binary32/binary64 format:
  a NaN, a signed infinity, or a sign with the biased exponent field and the
  fraction field (exponent field `0` holds the zeros and the subnormals).  All
  NaNs are identified.  Go's `==`, `<=`, `<`, `>` on floats are the IEEE
  comparisons: false whenever an operand is NaN, and `-0 == +0`.
* A Go `int` is an `Int` (the code only compares it with `0`).
* A Go function that returns `(value, error)` returns a pair whose second
  component is `none` for a `nil` error; a method with a pointer receiver
  returns the receiver after the call as well.
-/

namespace AutoScale

/-! ## Floating point values -/

/-- IEEE-754 binary32, the values of Go's `float32`. `fin neg expo frac` is
`(-1)^neg * frac * 2^(-149)` for `expo = 0` and
`(-1)^neg * (2^23 + frac) * 2^(expo - 150)` otherwise. -/
inductive Float32 where
  | nan : Float32
  | inf (neg : Bool) : Float32
  | fin (neg : Bool) (expo : Fin 255) (frac : Fin 8388608) : Float32
  deriving DecidableEq, Repr

/-- IEEE-754 binary64, the values of Go's `float64`. `fin neg expo frac` is
`(-1)^neg * frac * 2^(-1074)` for `expo = 0` and
`(-1)^neg * (2^52 + frac) * 2^(expo - 1075)` otherwise. -/
inductive Float64 where
  | nan : Float64
  | inf (neg : Bool) : Float64
  | fin (neg : Bool) (expo : Fin 2047) (frac : Fin 4503599627370496) : Float64
  deriving DecidableEq, Repr

namespace Float32

/-- The constant `0.0` as a `float32`. -/
def zero : Float32 := .fin false 0 0

/-- The constant `1.0` as a `float32` (bits `0x3F800000`). -/
def one : Float32 := .fin false 127 0

/-- The constant `1.333` as a `float32`: the nearest binary32 value,
`11182014 / 2^23` (bits `0x3FAA9FBE`). -/
def c1333 : Float32 := .fin false 127 2793406

def isNaN : Float32 → Bool
  | .nan => true
  | _ => false

/-- Sign-magnitude key of a value: the exponent and fraction fields read as one
integer, negated for a negative sign. On non-NaN values the IEEE order is the
order of the keys, and both zeros have key `0`. -/
def key : Float32 → Int
  | .nan => 0
  | .inf neg => if neg then -(2139095040 : Int) else 2139095040
  | .fin neg expo frac =>
      if neg then -((expo.val * 8388608 + frac.val : Nat) : Int)
      else ((expo.val * 8388608 + frac.val : Nat) : Int)

/-- Go's `a == b` on `float32`. -/
def eq (a b : Float32) : Bool := !a.isNaN && !b.isNaN && decide (a.key = b.key)

/-- Go's `a <= b` on `float32`. -/
def le (a b : Float32) : Bool := !a.isNaN && !b.isNaN && decide (a.key ≤ b.key)

/-- Go's `a < b` on `float32`. -/
def lt (a b : Float32) : Bool := !a.isNaN && !b.isNaN && decide (a.key < b.key)

/-- Go's `a > b` on `float32`. -/
def gt (a b : Float32) : Bool := lt b a

/-- Six decimal digits of `n % 10^6`, zero padded. -/
def sixDigits (n : Nat) : String :=
  String.mk [Nat.digitChar (n / 100000 % 10), Nat.digitChar (n / 10000 % 10),
    Nat.digitChar (n / 1000 % 10), Nat.digitChar (n / 100 % 10),
    Nat.digitChar (n / 10 % 10), Nat.digitChar (n % 10)]

/-- Magnitude of a finite value as a numerator over `2^149`. -/
def magNum (expo : Fin 255) (frac : Fin 8388608) : Nat :=
  if expo.val = 0 then frac.val else (8388608 + frac.val) * 2 ^ (expo.val - 1)

/-- The verb `%f` of package `fmt` applied to a `float32`: the exact value
rounded to six decimals, ties to even; `NaN`, `+Inf` and `-Inf` otherwise. -/
def sprintf_f : Float32 → String
  | .nan => "NaN"
  | .inf neg => if neg then "-Inf" else "+Inf"
  | .fin neg expo frac =>
      let scaled := magNum expo frac * 1000000
      let q := scaled / 2 ^ 149
      let r := scaled % 2 ^ 149
      let micro := if 2 ^ 148 < r ∨ (r = 2 ^ 148 ∧ q % 2 = 1) then q + 1 else q
      (if neg then "-" else "") ++ toString (micro / 1000000) ++ "." ++ sixDigits micro

end Float32

namespace Float64

/-- The constant `0.0` as a `float64`, which the configuration getters return
for a key that is not set. -/
def zero : Float64 := .fin false 0 0

/-- Exponent field and fraction field of the binary32 value nearest to
`m * 2^(e1 - 1075)`, read as one integer (round to nearest, ties to even). -/
def narrowMag (e1 m : Nat) : Nat :=
  let k : Nat := if 897 ≤ e1 then 29 else 926 - e1
  let q := m / 2 ^ k
  let r := m % 2 ^ k
  let inc : Nat := if 2 ^ (k - 1) < r ∨ (r = 2 ^ (k - 1) ∧ q % 2 = 1) then 1 else 0
  (e1 - 897) * 8388608 + q + inc

/-- Go's conversion `float32(x)` of a `float64`: round to nearest, ties to
even, overflow to infinity. -/
def toFloat32 : Float64 → Float32
  | .nan => .nan
  | .inf neg => .inf neg
  | .fin neg expo frac =>
      let mag :=
        if expo.val = 0 then narrowMag 1 frac.val
        else narrowMag expo.val (4503599627370496 + frac.val)
      if h : mag < 255 * 8388608 then
        .fin neg ⟨mag / 8388608, Nat.div_lt_of_lt_mul (by omega)⟩
          ⟨mag % 8388608, Nat.mod_lt _ (by decide)⟩
      else .inf neg

end Float64

/-! ## Errors, configuration, rules -/

/-- A Go `error` value, as far as this file distinguishes them. -/
inductive GoError where
  /-- An error built by `fmt.Errorf` with the given text. -/
  | errorf (msg : String) : GoError
  /-- The sentinel `mgo.ErrNotFound`. -/
  | ErrNotFound : GoError
  /-- A failure reported by the database driver (connection or operation). -/
  | driver (msg : String) : GoError
  /-- The error of a `config` getter for a key that is not set. -/
  | keyNotFound (key : String) : GoError
  deriving DecidableEq, Repr

/-- The method `Error()` of an `error`. -/
def GoError.Error : GoError → String
  | .errorf msg => msg
  | .ErrNotFound => "not found"
  | .driver msg => msg
  | .keyNotFound key => "key " ++ key ++ " not found"

/-- The process-wide configuration, restricted to the keys this file reads.
`none` is a key that is not set: the getter then returns the zero value of its
type together with an error, and every caller below but
`autoScaleRuleCollection` drops that error. -/
structure Config where
  /-- Key `docker:scheduler:max-used-memory`. -/
  maxUsedMemory : Option Float64
  /-- Key `docker:scheduler:total-memory-metadata`. -/
  totalMemoryMetadata : Option String
  /-- Key `docker:collection`. -/
  collection : Option String
  /-- Key `docker:auto-scale:metadata-filter`. -/
  metadataFilter : Option String
  /-- Key `docker:auto-scale:max-container-count`. -/
  maxContainerCount : Option Int
  /-- Key `docker:auto-scale:scale-down-ratio`. -/
  scaleDownRatio : Option Float64
  /-- Key `docker:auto-scale:prevent-rebalance`. -/
  preventRebalance : Option Bool
  deriving DecidableEq, Repr

/-- The struct `autoScaleRule`. -/
structure autoScaleRule where
  MetadataFilter : String
  Error : String
  MaxContainerCount : Int
  ScaleDownRatio : Float32
  MaxMemoryRatio : Float32
  Enabled : Bool
  PreventRebalance : Bool
  deriving DecidableEq, Repr

/-- Text of the error of the scale down ratio check, `%f` filled in. -/
def ratioMessage (x : Float32) : String :=
  "invalid rule, scale down ratio needs to be greater than 1.0, got " ++ Float32.sprintf_f x

/-- Text of the error of the enabled-rule check. -/
def infoMessage : String :=
  "invalid rule, either memory information or max container count must be set"

/-- Lines 41 to 51 of `normalize`: the default of `MaxMemoryRatio` and the check
of an enabled rule. -/
def autoScaleRule.normalizeMemory (cfg : Config) (r : autoScaleRule) :
    autoScaleRule × Option GoError :=
  let r1 : autoScaleRule :=
    if r.MaxMemoryRatio.eq Float32.zero then
      { r with MaxMemoryRatio := (cfg.maxUsedMemory.getD Float64.zero).toFloat32 }
    else r
  let TotalMemoryMetadata : String := cfg.totalMemoryMetadata.getD ""
  if r1.Enabled && decide (r1.MaxContainerCount ≤ 0) &&
      (decide (TotalMemoryMetadata = "") || r1.MaxMemoryRatio.le Float32.zero) then
    let err := GoError.errorf infoMessage
    ({ r1 with Error := err.Error }, some err)
  else (r1, none)

/-- The method `(r *autoScaleRule) normalize() error`: the rule after the call
and the error returned. -/
def autoScaleRule.normalize (cfg : Config) (r : autoScaleRule) :
    autoScaleRule × Option GoError :=
  if r.ScaleDownRatio.eq Float32.zero then
    autoScaleRule.normalizeMemory cfg { r with ScaleDownRatio := Float32.c1333 }
  else if r.ScaleDownRatio.le Float32.one then
    let err := GoError.errorf (ratioMessage r.ScaleDownRatio)
    ({ r with Error := err.Error }, some err)
  else autoScaleRule.normalizeMemory cfg r

/-! ## The rule store -/

/-- The BSON document of a rule: the field `_id` holds `MetadataFilter`, and
`Error` is tagged `bson:"-"`, so it is not part of the document. The numeric
fields are kept as they are in the rule (a `float32` written as a BSON double
is read back unchanged). -/
structure ruleDocument where
  id : String
  MaxContainerCount : Int
  ScaleDownRatio : Float32
  MaxMemoryRatio : Float32
  Enabled : Bool
  PreventRebalance : Bool
  deriving DecidableEq, Repr

/-- Encoding of a rule as its document. -/
def autoScaleRule.marshal (r : autoScaleRule) : ruleDocument :=
  { id := r.MetadataFilter, MaxContainerCount := r.MaxContainerCount,
    ScaleDownRatio := r.ScaleDownRatio, MaxMemoryRatio := r.MaxMemoryRatio,
    Enabled := r.Enabled, PreventRebalance := r.PreventRebalance }

/-- Decoding of a document into a fresh rule: `Error` keeps its zero value. -/
def ruleDocument.unmarshal (d : ruleDocument) : autoScaleRule :=
  { MetadataFilter := d.id, Error := "", MaxContainerCount := d.MaxContainerCount,
    ScaleDownRatio := d.ScaleDownRatio, MaxMemoryRatio := d.MaxMemoryRatio,
    Enabled := d.Enabled, PreventRebalance := d.PreventRebalance }

/-- The zero value of `autoScaleRule` (`var rule autoScaleRule`). -/
def autoScaleRule.zeroValue : autoScaleRule :=
  { MetadataFilter := "", Error := "", MaxContainerCount := 0,
    ScaleDownRatio := Float32.zero, MaxMemoryRatio := Float32.zero,
    Enabled := false, PreventRebalance := false }

/-- Modelled from the spec: the RuleStore of section 6 (package `db` and the
`mgo` driver are not part of the sources): one collection of rule documents
keyed by `id`, in the order in which find-all delivers them, with upsert by
key, find by key, find all and delete by key. `connErr` is the failure of
`db.Conn()`, if any; `opErr` is the failure with which the server answers an
operation, if any; a find-all that fails has delivered the first `delivered`
documents before. -/
structure Db where
  connErr : Option String
  opErr : Option String
  delivered : Nat
  docs : List ruleDocument
  deriving DecidableEq, Repr

/-- Replace the first document with the given key, or add the document. -/
def upsertDoc (id : String) (d : ruleDocument) : List ruleDocument → List ruleDocument
  | [] => [d]
  | x :: xs => if x.id = id then d :: xs else x :: upsertDoc id d xs

/-- The call `coll.UpsertId(id, r)`: the store after the call and the error. -/
def Db.UpsertId (db : Db) (id : String) (r : autoScaleRule) : Db × Option GoError :=
  match db.opErr with
  | some msg => (db, some (.driver msg))
  | none => ({ db with docs := upsertDoc id r.marshal db.docs }, none)

/-- The call `coll.Find(nil).All(&rules)` on a nil slice: the slice after the
call and the error. -/
def Db.FindAll (db : Db) : List autoScaleRule × Option GoError :=
  match db.opErr with
  | some msg => ((db.docs.take db.delivered).map ruleDocument.unmarshal, some (.driver msg))
  | none => (db.docs.map ruleDocument.unmarshal, none)

/-- The call `coll.FindId(id).One(&rule)` on a zero rule: the rule after the
call and the error. -/
def Db.FindId (db : Db) (id : String) : autoScaleRule × Option GoError :=
  match db.opErr with
  | some msg => (autoScaleRule.zeroValue, some (.driver msg))
  | none =>
    match db.docs.find? (fun d => decide (d.id = id)) with
    | some d => (d.unmarshal, none)
    | none => (autoScaleRule.zeroValue, some .ErrNotFound)

/-- Remove the first document with the given key. -/
def removeDoc (id : String) : List ruleDocument → List ruleDocument
  | [] => []
  | x :: xs => if x.id = id then xs else x :: removeDoc id xs

/-- The call `coll.RemoveId(id)`: the store after the call and the error. -/
def Db.RemoveId (db : Db) (id : String) : Db × Option GoError :=
  match db.opErr with
  | some msg => (db, some (.driver msg))
  | none =>
    if db.docs.any (fun d => decide (d.id = id)) then
      ({ db with docs := removeDoc id db.docs }, none)
    else (db, some .ErrNotFound)

/-! ## The repository operations -/

/-- The function `autoScaleRuleCollection`: the name of the collection and the
error. -/
def autoScaleRuleCollection (cfg : Config) (db : Db) : Option String × Option GoError :=
  match db.connErr with
  | some msg => (none, some (.driver msg))
  | none =>
    match cfg.collection with
    | none => (none, some (.keyNotFound "docker:collection"))
    | some name => (some (name ++ "_auto_scale_rule"), none)

/-- The method `(r *autoScaleRule) update() error`: the rule and the store
after the call, and the error returned. -/
def autoScaleRule.update (cfg : Config) (db : Db) (r : autoScaleRule) :
    (autoScaleRule × Db) × Option GoError :=
  match autoScaleRuleCollection cfg db with
  | (_, some err) => ((r, db), some err)
  | (_, none) =>
    match r.normalize cfg with
    | (r1, some err) => ((r1, db), some err)
    | (r1, none) =>
      match db.UpsertId r1.MetadataFilter r1 with
      | (db1, err) => ((r1, db1), err)

/-- The function `legacyAutoScaleRule`. -/
def legacyAutoScaleRule (cfg : Config) : autoScaleRule :=
  { MaxContainerCount := cfg.maxContainerCount.getD 0,
    MetadataFilter := cfg.metadataFilter.getD "",
    ScaleDownRatio := (cfg.scaleDownRatio.getD Float64.zero).toFloat32,
    PreventRebalance := cfg.preventRebalance.getD false,
    Enabled := true,
    Error := "",
    MaxMemoryRatio := Float32.zero }

/-- The type `autoScaleRuleList`. -/
abbrev autoScaleRuleList : Type := List autoScaleRule

/-- The method `Less` of `autoScaleRuleList`, on the two elements compared. -/
def autoScaleRuleList.Less (a b : autoScaleRule) : Bool :=
  decide (a.MetadataFilter < b.MetadataFilter)

/-- One round of the insertion sort of package `sort`: the new element `x`
is swapped towards the front for as long as `Less` holds between it and its
left neighbour. The sorted part is held back to front, its last element
first. -/
def sinkInto (x : autoScaleRule) : List autoScaleRule → List autoScaleRule
  | [] => [x]
  | y :: ys => if autoScaleRuleList.Less x y then y :: sinkInto x ys else x :: y :: ys

/-- The call `sort.Sort(autoScaleRuleList(rules))`, by the insertion sort that
package `sort` runs on short slices. On keys that are pairwise distinct every
sorting algorithm has this result. -/
def sort_Sort (l : autoScaleRuleList) : autoScaleRuleList :=
  (l.foldl (fun acc x => sinkInto x acc) []).reverse

/-- The loop of `listAutoScaleRules` over the rules read: the rules after the
loop and the value of `legacyRule` after it. -/
def listLoop (cfg : Config) :
    List autoScaleRule → Option autoScaleRule → List autoScaleRule × Option autoScaleRule
  | [], legacyRule => ([], legacyRule)
  | r :: rs, legacyRule =>
    let legacyRule1 : Option autoScaleRule :=
      match legacyRule with
      | some l => if r.MetadataFilter = l.MetadataFilter then none else some l
      | none => none
    match listLoop cfg rs legacyRule1 with
    | (rs1, legacyRule2) => ((r.normalize cfg).1 :: rs1, legacyRule2)

/-- The function `listAutoScaleRules`. -/
def listAutoScaleRules (cfg : Config) (db : Db) : List autoScaleRule × Option GoError :=
  match autoScaleRuleCollection cfg db with
  | (_, some err) => ([], some err)
  | (_, none) =>
    match db.FindAll with
    | (_, some err) => ([], some err)
    | (rules, none) =>
      match listLoop cfg rules (some (legacyAutoScaleRule cfg)) with
      | (rules1, some legacyRule) =>
        (sort_Sort (rules1 ++ [(legacyRule.normalize cfg).1]), none)
      | (rules1, none) => (sort_Sort rules1, none)

/-- The function `deleteAutoScaleRule`: the store after the call and the
error. -/
def deleteAutoScaleRule (cfg : Config) (db : Db) (metadataFilter : String) :
    Db × Option GoError :=
  match autoScaleRuleCollection cfg db with
  | (_, some err) => (db, some err)
  | (_, none) => db.RemoveId metadataFilter

/-- The function `autoScaleRuleForMetadata`. -/
def autoScaleRuleForMetadata (cfg : Config) (db : Db) (metadataFilter : String) :
    Option autoScaleRule × Option GoError :=
  match autoScaleRuleCollection cfg db with
  | (_, some err) => (none, some err)
  | (_, none) =>
    let found := db.FindId metadataFilter
    let resolved : autoScaleRule × Option GoError :=
      if found.2 = some .ErrNotFound then
        if (legacyAutoScaleRule cfg).MetadataFilter = metadataFilter then
          (legacyAutoScaleRule cfg, none)
        else found
      else found
    match resolved.2 with
    | some err => (none, some err)
    | none =>
      match resolved.1.normalize cfg with
      | (_, some err) => (none, some err)
      | (rule, none) => (some rule, none)

/-- Lines 135 to 143 of `autoScaleRuleForMetadata`, run once the collection
is obtained: the variable `rule` and the error `err` before the check of
line 144. It is the persisted record, or the legacy rule when there is no
record and the legacy filter is the key asked for. -/
def resolveRule (cfg : Config) (db : Db) (metadataFilter : String) :
    autoScaleRule × Option GoError :=
  let found := db.FindId metadataFilter
  if found.2 = some .ErrNotFound then
    if (legacyAutoScaleRule cfg).MetadataFilter = metadataFilter then
      (legacyAutoScaleRule cfg, none)
    else found
  else found

/-! ## Sample values -/

/-- The configuration in which no key is set. -/
def emptyConfig : Config :=
  { maxUsedMemory := none, totalMemoryMetadata := none, collection := none,
    metadataFilter := none, maxContainerCount := none, scaleDownRatio := none,
    preventRebalance := none }

/-- The rule `{metadataFilter: "pool=a", maxContainerCount: 5, scaleDownRatio: 0,
enabled: true}`. -/
def rulePoolA : autoScaleRule :=
  { MetadataFilter := "pool=a", Error := "", MaxContainerCount := 5,
    ScaleDownRatio := Float32.zero, MaxMemoryRatio := Float32.zero,
    Enabled := true, PreventRebalance := false }

/-- The rule `{metadataFilter: "pool=b", scaleDownRatio: 0.9}`; `0.9` as a
`float32` has bits `0x3F666666`. -/
def rulePoolB : autoScaleRule :=
  { MetadataFilter := "pool=b", Error := "", MaxContainerCount := 0,
    ScaleDownRatio := .fin false 126 6710886, MaxMemoryRatio := Float32.zero,
    Enabled := false, PreventRebalance := false }

/-- An enabled rule without a container count and without a memory ratio. -/
def ruleBare : autoScaleRule :=
  { MetadataFilter := "pool=c", Error := "", MaxContainerCount := 0,
    ScaleDownRatio := Float32.zero, MaxMemoryRatio := Float32.zero,
    Enabled := true, PreventRebalance := false }

/-- A rule whose scale down ratio is NaN. -/
def ruleRatioNaN : autoScaleRule :=
  { MetadataFilter := "pool=n", Error := "", MaxContainerCount := 5,
    ScaleDownRatio := .nan, MaxMemoryRatio := Float32.zero,
    Enabled := true, PreventRebalance := false }

/-- An enabled rule without a container count whose memory ratio is NaN. -/
def ruleMemoryNaN : autoScaleRule :=
  { MetadataFilter := "pool=m", Error := "", MaxContainerCount := 0,
    ScaleDownRatio := Float32.zero, MaxMemoryRatio := .nan,
    Enabled := true, PreventRebalance := false }

/-- A configuration that names the collection and the memory metadata and sets
the global memory ratio to `0.5`. -/
def memoryConfig : Config :=
  { maxUsedMemory := some (.fin false 1022 0), totalMemoryMetadata := some "mem",
    collection := some "docker", metadataFilter := none, maxContainerCount := none,
    scaleDownRatio := none, preventRebalance := none }

/-- A store that can be reached and holds no document. -/
def emptyDb : Db := { connErr := none, opErr := none, delivered := 0, docs := [] }

/-- A store that holds the documents of `pool=b` (scale down ratio `0.9`) and
of `pool=a`. -/
def sampleDb : Db :=
  { connErr := none, opErr := none, delivered := 0,
    docs := [rulePoolB.marshal, rulePoolA.marshal] }

/-- A configuration that names the collection and whose legacy rule has the
filter `pool=b` and the container count 10. -/
def legacyConfig : Config :=
  { maxUsedMemory := none, totalMemoryMetadata := none, collection := some "docker",
    metadataFilter := some "pool=b", maxContainerCount := some 10,
    scaleDownRatio := none, preventRebalance := none }

/-- The configuration `legacyConfig` without the key "docker:collection". -/
def legacyConfigNoCollection : Config :=
  { maxUsedMemory := none, totalMemoryMetadata := none, collection := none,
    metadataFilter := some "pool=b", maxContainerCount := some 10,
    scaleDownRatio := none, preventRebalance := none }

/-- A store whose find-all fails after it has delivered one of two documents. -/
def faultyDb : Db :=
  { connErr := none, opErr := some "connection reset", delivered := 1,
    docs := [rulePoolA.marshal, rulePoolB.marshal] }

/-- A store that holds the document of `pool=b` only. -/
def singleDb : Db :=
  { connErr := none, opErr := none, delivered := 0, docs := [rulePoolB.marshal] }

/-! ## Auxiliary facts -/

theorem append_ne_empty_of_left (a b : String) (h : a ≠ "") : a ++ b ≠ "" := by
  intro hab
  apply h
  have hl : (a ++ b).length = 0 := by rw [hab]; rfl
  rw [String.length_append] at hl
  have ha : a.length = 0 := by omega
  cases a with
  | mk d =>
    have hd : d = [] := List.length_eq_zero.mp ha
    subst hd
    rfl

theorem ratioMessage_ne_empty (x : Float32) : ratioMessage x ≠ "" :=
  append_ne_empty_of_left _ _ (by decide)

theorem infoMessage_ne_empty : infoMessage ≠ "" := by decide

theorem normalizeMemory_ratio (cfg : Config) (r : autoScaleRule) :
    (r.normalizeMemory cfg).1.ScaleDownRatio = r.ScaleDownRatio := by
  unfold autoScaleRule.normalizeMemory
  simp only
  split_ifs <;> rfl

theorem normalize_ratio_of_zero (cfg : Config) (r : autoScaleRule)
    (h : r.ScaleDownRatio.eq Float32.zero = true) :
    (r.normalize cfg).1.ScaleDownRatio = Float32.c1333 := by
  unfold autoScaleRule.normalize
  rw [if_pos h, normalizeMemory_ratio]

/-! ## Normalisation -/

/-- C1: a rule whose scaleDownRatio is 0 (either zero) before normalize has
scaleDownRatio 1.333 after it, under every configuration and whether or not
normalize then fails on the enabled-rule check. -/
theorem normalize_zero_ratio_defaults (cfg : Config) (r : autoScaleRule)
    (h : r.ScaleDownRatio.eq Float32.zero = true) :
    (r.normalize cfg).1.ScaleDownRatio = Float32.c1333 := by
  unfold autoScaleRule.normalize
  rw [if_pos h]
  exact normalizeMemory_ratio cfg { r with ScaleDownRatio := Float32.c1333 }


theorem normalize_zero_ratio_defaults_witness :
    rulePoolA.ScaleDownRatio.eq Float32.zero = true ∧
      (rulePoolA.normalize emptyConfig).1.ScaleDownRatio = Float32.c1333 :=
  ⟨by decide, normalize_zero_ratio_defaults emptyConfig rulePoolA (by decide)⟩

theorem sprintf_f_samples :
    Float32.sprintf_f (.fin false 126 6710886) = "0.900000" ∧
      Float32.sprintf_f (.fin false 126 0) = "0.500000" ∧
      Float32.sprintf_f (.fin true 127 0) = "-1.000000" ∧
      Float32.sprintf_f (.fin false 120 0) = "0.007812" ∧
      Float32.sprintf_f (.fin true 0 1) = "-0.000000" ∧
      Float32.sprintf_f Float32.c1333 = "1.333000" ∧
      Float32.sprintf_f (.inf true) = "-Inf" ∧
      Float32.sprintf_f (.inf false) = "+Inf" ∧
      Float32.sprintf_f .nan = "NaN" := by
  decide

theorem sprintf_f_rounds (neg : Bool) (expo : Fin 255) (frac : Fin 8388608) :
    ∃ N : Nat,
      2 * N * 2 ^ 149 ≤
        2 * ((if expo.val = 0 then frac.val else (8388608 + frac.val) * 2 ^ (expo.val - 1)) *
          1000000) + 2 ^ 149 ∧
      2 * ((if expo.val = 0 then frac.val else (8388608 + frac.val) * 2 ^ (expo.val - 1)) *
          1000000) ≤ (2 * N + 1) * 2 ^ 149 ∧
      (2 * ((if expo.val = 0 then frac.val else (8388608 + frac.val) * 2 ^ (expo.val - 1)) *
          1000000) = (2 * N + 1) * 2 ^ 149 → N % 2 = 0) ∧
      (2 * N * 2 ^ 149 =
        2 * ((if expo.val = 0 then frac.val else (8388608 + frac.val) * 2 ^ (expo.val - 1)) *
          1000000) + 2 ^ 149 → N % 2 = 0) ∧
      Float32.sprintf_f (.fin neg expo frac) =
        (if neg then "-" else "") ++ toString (N / 1000000) ++ "." ++
          String.mk [Nat.digitChar (N / 100000 % 10), Nat.digitChar (N / 10000 % 10),
            Nat.digitChar (N / 1000 % 10), Nat.digitChar (N / 100 % 10),
            Nat.digitChar (N / 10 % 10), Nat.digitChar (N % 10)] := by
  have hD : (2 : Nat) ^ 149 = 713623846352979940529142984724747568191373312 := by norm_num
  have hH : (2 : Nat) ^ 148 = 356811923176489970264571492362373784095686656 := by norm_num
  refine ⟨if 2 ^ 148 < (Float32.magNum expo frac * 1000000) % 2 ^ 149 ∨
      ((Float32.magNum expo frac * 1000000) % 2 ^ 149 = 2 ^ 148 ∧
        (Float32.magNum expo frac * 1000000) / 2 ^ 149 % 2 = 1)
    then (Float32.magNum expo frac * 1000000) / 2 ^ 149 + 1
    else (Float32.magNum expo frac * 1000000) / 2 ^ 149, ?_, ?_, ?_, ?_, rfl⟩ <;>
  · show _
    have hm : (if expo.val = 0 then frac.val else (8388608 + frac.val) * 2 ^ (expo.val - 1)) =
        Float32.magNum expo frac := rfl
    rw [hm, hD, hH]
    generalize Float32.magNum expo frac * 1000000 = S
    split_ifs <;> omega

/-- C2: for a rule whose scaleDownRatio is non-zero and `<= 1.0` (negative
values and `-Inf` included), normalize returns the error of the ratio check
and sets rule.error to its text, which is not empty. The text says that the
ratio needs to be greater than 1.0 and ends with the offending value as `%f`
prints it: `-Inf`, or the sign, the integer part in decimal, a point and six
decimals of the number N of millionths nearest to the magnitude of the ratio
(ties to even), the magnitude being the numerator below over `2^149`. -/
theorem normalize_low_ratio_fails (cfg : Config) (r : autoScaleRule)
    (h0 : r.ScaleDownRatio.eq Float32.zero = false)
    (h1 : r.ScaleDownRatio.le Float32.one = true) :
    (r.normalize cfg).2 = some (GoError.errorf
        ("invalid rule, scale down ratio needs to be greater than 1.0, got " ++
          Float32.sprintf_f r.ScaleDownRatio)) ∧
      (r.normalize cfg).1.Error =
        "invalid rule, scale down ratio needs to be greater than 1.0, got " ++
          Float32.sprintf_f r.ScaleDownRatio ∧
      (r.normalize cfg).1.Error ≠ "" ∧
      ((r.ScaleDownRatio = Float32.inf true ∧
          (r.normalize cfg).1.Error =
            "invalid rule, scale down ratio needs to be greater than 1.0, got -Inf") ∨
        ∃ (neg : Bool) (expo : Fin 255) (frac : Fin 8388608) (N : Nat),
          r.ScaleDownRatio = Float32.fin neg expo frac ∧
          2 * N * 2 ^ 149 ≤
            2 * ((if expo.val = 0 then frac.val
              else (8388608 + frac.val) * 2 ^ (expo.val - 1)) * 1000000) + 2 ^ 149 ∧
          2 * ((if expo.val = 0 then frac.val
              else (8388608 + frac.val) * 2 ^ (expo.val - 1)) * 1000000) ≤
            (2 * N + 1) * 2 ^ 149 ∧
          (2 * ((if expo.val = 0 then frac.val
              else (8388608 + frac.val) * 2 ^ (expo.val - 1)) * 1000000) =
            (2 * N + 1) * 2 ^ 149 → N % 2 = 0) ∧
          (2 * N * 2 ^ 149 =
            2 * ((if expo.val = 0 then frac.val
              else (8388608 + frac.val) * 2 ^ (expo.val - 1)) * 1000000) + 2 ^ 149 →
            N % 2 = 0) ∧
          (r.normalize cfg).1.Error =
            "invalid rule, scale down ratio needs to be greater than 1.0, got " ++
              ((if neg then "-" else "") ++ toString (N / 1000000) ++ "." ++
                String.mk [Nat.digitChar (N / 100000 % 10), Nat.digitChar (N / 10000 % 10),
                  Nat.digitChar (N / 1000 % 10), Nat.digitChar (N / 100 % 10),
                  Nat.digitChar (N / 10 % 10), Nat.digitChar (N % 10)])) := by
  have hn : r.normalize cfg =
      ({ r with Error := ratioMessage r.ScaleDownRatio },
        some (GoError.errorf (ratioMessage r.ScaleDownRatio))) := by
    unfold autoScaleRule.normalize
    rw [if_neg (by simp [h0]), if_pos h1]
    rfl
  rw [hn]
  refine ⟨rfl, rfl, ratioMessage_ne_empty _, ?_⟩
  rcases hs : r.ScaleDownRatio with _ | neg | ⟨neg, expo, frac⟩
  · rw [hs] at h1; exact absurd h1 (by decide)
  · cases neg
    · rw [hs] at h1; exact absurd h1 (by decide)
    · exact Or.inl ⟨rfl, rfl⟩
  · obtain ⟨N, b1, b2, b3, b4, b5⟩ := sprintf_f_rounds neg expo frac
    refine Or.inr ⟨neg, expo, frac, N, rfl, b1, b2, b3, b4, ?_⟩
    show ratioMessage (Float32.fin neg expo frac) = _
    unfold ratioMessage
    rw [b5]

theorem normalize_low_ratio_fails_witness :
    (rulePoolB.normalize emptyConfig).2 = some (GoError.errorf
        "invalid rule, scale down ratio needs to be greater than 1.0, got 0.900000") ∧
      (rulePoolB.normalize emptyConfig).1.Error =
        "invalid rule, scale down ratio needs to be greater than 1.0, got 0.900000" ∧
      (rulePoolB.normalize emptyConfig).1.Error ≠ "" := by
  have h := normalize_low_ratio_fails emptyConfig rulePoolB (by decide) (by decide)
  have ht : "invalid rule, scale down ratio needs to be greater than 1.0, got " ++
      Float32.sprintf_f rulePoolB.ScaleDownRatio =
      "invalid rule, scale down ratio needs to be greater than 1.0, got 0.900000" := by
    decide
  rw [ht] at h
  exact ⟨h.1, h.2.1, h.2.2.1⟩

theorem normalizeMemory_fails (cfg : Config) (r : autoScaleRule)
    (hE : r.Enabled = true) (hC : r.MaxContainerCount ≤ 0)
    (hT : cfg.totalMemoryMetadata = none) :
    (r.normalizeMemory cfg).2 = some (GoError.errorf infoMessage) ∧
      (r.normalizeMemory cfg).1.Error = infoMessage := by
  unfold autoScaleRule.normalizeMemory
  simp only [hT, Option.getD_none]
  split_ifs with h1 h2 h2
  · exact ⟨rfl, rfl⟩
  · simp [hE, hC] at h2
  · exact ⟨rfl, rfl⟩
  · simp [hE, hC] at h2

/-- C3: an enabled rule with maxContainerCount `<= 0` and maxMemoryRatio `<= 0`,
under a configuration in which "total-memory-metadata" is not set, is rejected
by normalize whatever its scaleDownRatio and whatever the global memory ratio:
the error returned is one of the two validation errors and rule.error holds
its text, which is not empty. -/
theorem normalize_enabled_without_information_fails (cfg : Config) (r : autoScaleRule)
    (hE : r.Enabled = true) (hC : r.MaxContainerCount ≤ 0)
    (_hM : r.MaxMemoryRatio.le Float32.zero = true)
    (hT : cfg.totalMemoryMetadata = none) :
    ∃ msg : String, (r.normalize cfg).2 = some (GoError.errorf msg) ∧
      (msg = ratioMessage r.ScaleDownRatio ∨ msg = infoMessage) ∧
      (r.normalize cfg).1.Error = msg ∧ (r.normalize cfg).1.Error ≠ "" := by
  unfold autoScaleRule.normalize
  split_ifs with h0 h1
  · obtain ⟨ha, hb⟩ := normalizeMemory_fails cfg { r with ScaleDownRatio := Float32.c1333 } hE hC hT
    exact ⟨infoMessage, ha, Or.inr rfl, hb, by rw [hb]; exact infoMessage_ne_empty⟩
  · exact ⟨ratioMessage r.ScaleDownRatio, rfl, Or.inl rfl, rfl, ratioMessage_ne_empty _⟩
  · obtain ⟨ha, hb⟩ := normalizeMemory_fails cfg r hE hC hT
    exact ⟨infoMessage, ha, Or.inr rfl, hb, by rw [hb]; exact infoMessage_ne_empty⟩

theorem normalize_enabled_without_information_fails_witness :
    ∃ msg : String, (ruleBare.normalize emptyConfig).2 = some (GoError.errorf msg) ∧
      (msg = ratioMessage ruleBare.ScaleDownRatio ∨ msg = infoMessage) ∧
      (ruleBare.normalize emptyConfig).1.Error = msg ∧
      (ruleBare.normalize emptyConfig).1.Error ≠ "" :=
  normalize_enabled_without_information_fails emptyConfig ruleBare rfl (by decide)
    (by decide) rfl

theorem gt_one_of_not_le (x : Float32) (hn : x.isNaN = false)
    (hl : x.le Float32.one = false) : x.gt Float32.one = true := by
  unfold Float32.gt Float32.lt
  unfold Float32.le at hl
  have h1 : Float32.one.isNaN = false := rfl
  simp only [hn, h1, Bool.not_false, Bool.true_and, decide_eq_false_iff_not, not_le,
    decide_eq_true_eq] at hl ⊢
  exact hl

/-- C4, as stated, fails: the rule with scaleDownRatio `0.9` is rejected by
normalize and keeps its ratio, which is not `> 1.0`; the rule with a NaN ratio
is accepted and keeps its ratio, which is not `> 1.0` either. -/
theorem normalize_ratio_gt_one_counterexample :
    ((rulePoolB.normalize emptyConfig).1.ScaleDownRatio.gt Float32.one = false ∧
      (rulePoolB.normalize emptyConfig).1.ScaleDownRatio = rulePoolB.ScaleDownRatio) ∧
    ((ruleRatioNaN.normalize emptyConfig).2 = none ∧
      (ruleRatioNaN.normalize emptyConfig).1.ScaleDownRatio.gt Float32.one = false) := by
  decide

/-- C4, amended: for every rule and configuration the scale down ratio check
of normalize decides the ratio afterwards. A rule that passes it, that is whose
ratio is 0 or is not `<= 1.0`, has afterwards a scaleDownRatio that is not
`<= 1.0`: it is `> 1.0` unless it is NaN, and it is 1.333 when it was 0
before, whether or not the later enabled-rule check fails. A rule whose ratio
is non-zero and `<= 1.0` is rejected with the error of the ratio check and
keeps its ratio. -/
theorem normalize_ratio_after_check (cfg : Config) (r : autoScaleRule) :
    ((r.ScaleDownRatio.eq Float32.zero = true ∨ r.ScaleDownRatio.le Float32.one = false) →
      (r.normalize cfg).1.ScaleDownRatio.le Float32.one = false ∧
      ((r.normalize cfg).1.ScaleDownRatio.isNaN = false →
        (r.normalize cfg).1.ScaleDownRatio.gt Float32.one = true) ∧
      (r.ScaleDownRatio.eq Float32.zero = true →
        (r.normalize cfg).1.ScaleDownRatio = Float32.c1333) ∧
      (r.ScaleDownRatio.eq Float32.zero = false →
        (r.normalize cfg).1.ScaleDownRatio = r.ScaleDownRatio)) ∧
    ((r.ScaleDownRatio.eq Float32.zero = false ∧ r.ScaleDownRatio.le Float32.one = true) →
      (r.normalize cfg).2 = some (GoError.errorf
        ("invalid rule, scale down ratio needs to be greater than 1.0, got " ++
          Float32.sprintf_f r.ScaleDownRatio)) ∧
      (r.normalize cfg).1.ScaleDownRatio = r.ScaleDownRatio ∧
      (r.normalize cfg).1.ScaleDownRatio.gt Float32.one = false) := by
  constructor
  · intro h
    have key : (r.normalize cfg).1.ScaleDownRatio.le Float32.one = false ∧
        (r.ScaleDownRatio.eq Float32.zero = true →
          (r.normalize cfg).1.ScaleDownRatio = Float32.c1333) ∧
        (r.ScaleDownRatio.eq Float32.zero = false →
          (r.normalize cfg).1.ScaleDownRatio = r.ScaleDownRatio) := by
      unfold autoScaleRule.normalize
      split_ifs with h0 h1
      · rw [normalizeMemory_ratio]
        exact ⟨(by decide : Float32.c1333.le Float32.one = false), fun _ => rfl,
          fun h' => by rw [h0] at h'; exact absurd h' (by decide)⟩
      · rcases h with h | h
        · exact absurd h h0
        · rw [h1] at h; exact absurd h (by decide)
      · rw [normalizeMemory_ratio]
        exact ⟨by simpa using h1, fun h' => absurd h' h0, fun _ => rfl⟩
    exact ⟨key.1, fun hn => gt_one_of_not_le _ hn key.1, key.2.1, key.2.2⟩
  · rintro ⟨h0, h1⟩
    have hn : r.normalize cfg =
        ({ r with Error := ratioMessage r.ScaleDownRatio },
          some (GoError.errorf (ratioMessage r.ScaleDownRatio))) := by
      unfold autoScaleRule.normalize
      rw [if_neg (by simp [h0]), if_pos h1]
      rfl
    rw [hn]
    refine ⟨rfl, rfl, ?_⟩
    show r.ScaleDownRatio.gt Float32.one = false
    unfold Float32.gt Float32.lt
    unfold Float32.le at h1
    simp only [Bool.and_eq_true, Bool.not_eq_true', decide_eq_true_eq] at h1
    obtain ⟨⟨a, b⟩, c⟩ := h1
    simp only [a, b, Bool.not_false, Bool.true_and, decide_eq_false_iff_not, not_lt]
    exact c

theorem normalize_ratio_after_check_witness :
    ((rulePoolA.normalize emptyConfig).1.ScaleDownRatio.le Float32.one = false ∧
      ((rulePoolA.normalize emptyConfig).1.ScaleDownRatio.isNaN = false →
        (rulePoolA.normalize emptyConfig).1.ScaleDownRatio.gt Float32.one = true) ∧
      (rulePoolA.ScaleDownRatio.eq Float32.zero = true →
        (rulePoolA.normalize emptyConfig).1.ScaleDownRatio = Float32.c1333) ∧
      (rulePoolA.ScaleDownRatio.eq Float32.zero = false →
        (rulePoolA.normalize emptyConfig).1.ScaleDownRatio = rulePoolA.ScaleDownRatio)) ∧
    ((rulePoolB.normalize emptyConfig).2 = some (GoError.errorf
        ("invalid rule, scale down ratio needs to be greater than 1.0, got " ++
          Float32.sprintf_f rulePoolB.ScaleDownRatio)) ∧
      (rulePoolB.normalize emptyConfig).1.ScaleDownRatio = rulePoolB.ScaleDownRatio ∧
      (rulePoolB.normalize emptyConfig).1.ScaleDownRatio.gt Float32.one = false) :=
  ⟨(normalize_ratio_after_check emptyConfig rulePoolA).1 (Or.inl (by decide)),
    (normalize_ratio_after_check emptyConfig rulePoolB).2 ⟨by decide, by decide⟩⟩

theorem normalizeMemory_enabled (cfg : Config) (r : autoScaleRule) :
    (r.normalizeMemory cfg).1.Enabled = r.Enabled ∧
      (r.normalizeMemory cfg).1.MaxContainerCount = r.MaxContainerCount ∧
      (r.normalizeMemory cfg).1.MetadataFilter = r.MetadataFilter ∧
      (r.normalizeMemory cfg).1.PreventRebalance = r.PreventRebalance := by
  unfold autoScaleRule.normalizeMemory
  simp only
  split_ifs <;> exact ⟨rfl, rfl, rfl, rfl⟩

theorem normalizeMemory_accepts (cfg : Config) (r : autoScaleRule)
    (h : (r.normalizeMemory cfg).2 = none)
    (hE : (r.normalizeMemory cfg).1.Enabled = true) :
    0 < (r.normalizeMemory cfg).1.MaxContainerCount ∨
      (cfg.totalMemoryMetadata.getD "" ≠ "" ∧
        (r.normalizeMemory cfg).1.MaxMemoryRatio.le Float32.zero = false) := by
  unfold autoScaleRule.normalizeMemory at h hE ⊢
  simp only at h hE ⊢
  generalize (if r.MaxMemoryRatio.eq Float32.zero = true then
    ({ r with MaxMemoryRatio := (cfg.maxUsedMemory.getD Float64.zero).toFloat32 } : autoScaleRule)
    else r) = r1 at h hE ⊢
  split_ifs at h hE ⊢ with h2
  simp only [Bool.and_eq_true, Bool.or_eq_true, decide_eq_true_eq, not_and, not_or,
    Bool.not_eq_true] at h2
  by_cases hc : r1.MaxContainerCount ≤ 0
  · exact Or.inr (h2 ⟨hE, hc⟩)
  · exact Or.inl (by simpa using hc)

theorem gt_zero_of_not_le (x : Float32) (hn : x.isNaN = false)
    (hl : x.le Float32.zero = false) : x.gt Float32.zero = true := by
  unfold Float32.gt Float32.lt
  unfold Float32.le at hl
  have h1 : Float32.zero.isNaN = false := rfl
  simp only [hn, h1, Bool.not_false, Bool.true_and, decide_eq_false_iff_not, not_le,
    decide_eq_true_eq] at hl ⊢
  exact hl

/-- C5, as stated, fails: with "total-memory-metadata" configured, normalize
accepts the enabled rule whose maxContainerCount is 0 and whose maxMemoryRatio
is NaN, although neither `maxContainerCount > 0` nor `maxMemoryRatio > 0`
holds of the resulting rule. -/
theorem normalize_accepts_nan_memory_counterexample :
    (ruleMemoryNaN.normalize memoryConfig).2 = none ∧
      (ruleMemoryNaN.normalize memoryConfig).1.Enabled = true ∧
      ¬ (0 < (ruleMemoryNaN.normalize memoryConfig).1.MaxContainerCount ∨
        (memoryConfig.totalMemoryMetadata.getD "" ≠ "" ∧
          (ruleMemoryNaN.normalize memoryConfig).1.MaxMemoryRatio.gt Float32.zero = true)) := by
  decide

/-- C5, amended: when normalize returns no error and the resulting rule is
enabled, then its maxContainerCount is `> 0`, or "total-memory-metadata" is
configured non-empty and its maxMemoryRatio is not `<= 0`, which is `> 0`
unless the ratio is NaN. -/
theorem normalize_accepted_rule_is_informed (cfg : Config) (r : autoScaleRule)
    (h : (r.normalize cfg).2 = none) (hE : (r.normalize cfg).1.Enabled = true) :
    0 < (r.normalize cfg).1.MaxContainerCount ∨
      (cfg.totalMemoryMetadata.getD "" ≠ "" ∧
        (r.normalize cfg).1.MaxMemoryRatio.le Float32.zero = false ∧
        ((r.normalize cfg).1.MaxMemoryRatio.isNaN = false →
          (r.normalize cfg).1.MaxMemoryRatio.gt Float32.zero = true)) := by
  have key : 0 < (r.normalize cfg).1.MaxContainerCount ∨
      (cfg.totalMemoryMetadata.getD "" ≠ "" ∧
        (r.normalize cfg).1.MaxMemoryRatio.le Float32.zero = false) := by
    unfold autoScaleRule.normalize at h hE ⊢
    split_ifs at h hE ⊢ with h0 h1
    · exact normalizeMemory_accepts cfg _ h hE
    · exact normalizeMemory_accepts cfg _ h hE
  rcases key with hk | ⟨hk1, hk2⟩
  · exact Or.inl hk
  · exact Or.inr ⟨hk1, hk2, fun hn => gt_zero_of_not_le _ hn hk2⟩

theorem normalize_accepted_rule_is_informed_witness :
    0 < (ruleBare.normalize memoryConfig).1.MaxContainerCount ∨
      (memoryConfig.totalMemoryMetadata.getD "" ≠ "" ∧
        (ruleBare.normalize memoryConfig).1.MaxMemoryRatio.le Float32.zero = false ∧
        ((ruleBare.normalize memoryConfig).1.MaxMemoryRatio.isNaN = false →
          (ruleBare.normalize memoryConfig).1.MaxMemoryRatio.gt Float32.zero = true)) :=
  normalize_accepted_rule_is_informed memoryConfig ruleBare (by decide) (by decide)

/-! ## Update -/

/-- C6, as stated, fails: normalize rejects the rule with scaleDownRatio `0.9`,
but when the collection cannot be obtained (here "docker:collection" is not
set) update returns the error of `autoScaleRuleCollection`, not the
normalization error. -/
theorem update_returns_collection_error_counterexample :
    (rulePoolB.normalize emptyConfig).2 =
        some (GoError.errorf (ratioMessage rulePoolB.ScaleDownRatio)) ∧
      (rulePoolB.update emptyConfig emptyDb).2 =
        some (GoError.keyNotFound "docker:collection") ∧
      (rulePoolB.update emptyConfig emptyDb).2 ≠ (rulePoolB.normalize emptyConfig).2 := by
  decide

/-- C6, amended: for every rule on which normalize fails, update performs no
write, the store after the call is the store before it; update returns that
normalization error whenever `autoScaleRuleCollection` succeeds, and the error
of `autoScaleRuleCollection` otherwise. -/
theorem update_invalid_rule_writes_nothing (cfg : Config) (db : Db) (r : autoScaleRule)
    (e : GoError) (h : (r.normalize cfg).2 = some e) :
    (r.update cfg db).1.2 = db ∧
      ((autoScaleRuleCollection cfg db).2 = none → (r.update cfg db).2 = some e) ∧
      (∀ e1 : GoError, (autoScaleRuleCollection cfg db).2 = some e1 →
        (r.update cfg db).2 = some e1) := by
  unfold autoScaleRule.update
  rcases hc : autoScaleRuleCollection cfg db with ⟨name, _ | e1⟩
  · rcases hn : r.normalize cfg with ⟨r1, _ | e2⟩
    · rw [hn] at h; simp at h
    · rw [hn] at h
      simp only [Option.some.injEq] at h
      subst h
      simp
  · simp

theorem update_invalid_rule_writes_nothing_witness :
    (rulePoolB.update memoryConfig sampleDb).1.2 = sampleDb ∧
      ((autoScaleRuleCollection memoryConfig sampleDb).2 = none →
        (rulePoolB.update memoryConfig sampleDb).2 =
          some (GoError.errorf (ratioMessage rulePoolB.ScaleDownRatio))) ∧
      (∀ e1 : GoError, (autoScaleRuleCollection memoryConfig sampleDb).2 = some e1 →
        (rulePoolB.update memoryConfig sampleDb).2 = some e1) :=
  update_invalid_rule_writes_nothing memoryConfig sampleDb rulePoolB
    (GoError.errorf (ratioMessage rulePoolB.ScaleDownRatio)) (by decide)

theorem normalizeMemory_cases (cfg : Config) (r : autoScaleRule) :
    ∃ r1 : autoScaleRule,
      (r1.MaxMemoryRatio.eq Float32.zero = true →
        r1.MaxMemoryRatio = (cfg.maxUsedMemory.getD Float64.zero).toFloat32) ∧
      r.normalizeMemory cfg =
        if (r1.Enabled && decide (r1.MaxContainerCount ≤ 0) &&
            (decide (cfg.totalMemoryMetadata.getD "" = "") ||
              r1.MaxMemoryRatio.le Float32.zero)) = true then
          ({ r1 with Error := infoMessage }, some (GoError.errorf infoMessage))
        else (r1, none) := by
  by_cases hm : r.MaxMemoryRatio.eq Float32.zero = true
  · refine ⟨{ r with MaxMemoryRatio := (cfg.maxUsedMemory.getD Float64.zero).toFloat32 },
      fun _ => rfl, ?_⟩
    unfold autoScaleRule.normalizeMemory
    simp only [hm, if_true]
    rfl
  · refine ⟨r, fun h1 => absurd h1 hm, ?_⟩
    unfold autoScaleRule.normalizeMemory
    simp only [hm]
    rfl

theorem normalizeMemory_accepted (cfg : Config) (r : autoScaleRule)
    (h : (r.normalizeMemory cfg).2 = none) :
    ((r.normalizeMemory cfg).1.MaxMemoryRatio.eq Float32.zero = true →
        (r.normalizeMemory cfg).1.MaxMemoryRatio =
          (cfg.maxUsedMemory.getD Float64.zero).toFloat32) ∧
      ((r.normalizeMemory cfg).1.Enabled &&
        decide ((r.normalizeMemory cfg).1.MaxContainerCount ≤ 0) &&
        (decide (cfg.totalMemoryMetadata.getD "" = "") ||
          (r.normalizeMemory cfg).1.MaxMemoryRatio.le Float32.zero)) = false := by
  obtain ⟨r1, h1, h2⟩ := normalizeMemory_cases cfg r
  rw [h2] at h ⊢
  split_ifs at h ⊢ with hc
  exact ⟨h1, by simpa using hc⟩

theorem normalizeMemory_of_accepted (cfg : Config) (r : autoScaleRule)
    (h1 : r.MaxMemoryRatio.eq Float32.zero = true →
      r.MaxMemoryRatio = (cfg.maxUsedMemory.getD Float64.zero).toFloat32)
    (h2 : (r.Enabled && decide (r.MaxContainerCount ≤ 0) &&
      (decide (cfg.totalMemoryMetadata.getD "" = "") ||
        r.MaxMemoryRatio.le Float32.zero)) = false) :
    r.normalizeMemory cfg = (r, none) := by
  have hr : (if r.MaxMemoryRatio.eq Float32.zero = true then
      ({ r with MaxMemoryRatio := (cfg.maxUsedMemory.getD Float64.zero).toFloat32 } :
        autoScaleRule) else r) = r := by
    split_ifs with hm
    · rw [← h1 hm]
    · rfl
  unfold autoScaleRule.normalizeMemory
  simp only
  rw [hr, if_neg (by simp [h2])]

/-- A rule that normalize accepts, read back from its document or with any
other error text, is accepted again and left as it is. -/
theorem normalize_stable (cfg : Config) (r r2 : autoScaleRule)
    (h : (r.normalize cfg).2 = none)
    (hS : r2.ScaleDownRatio = (r.normalize cfg).1.ScaleDownRatio)
    (hM : r2.MaxMemoryRatio = (r.normalize cfg).1.MaxMemoryRatio)
    (hC : r2.MaxContainerCount = (r.normalize cfg).1.MaxContainerCount)
    (hE : r2.Enabled = (r.normalize cfg).1.Enabled) :
    r2.normalize cfg = (r2, none) := by
  have hc : Float32.c1333.eq Float32.zero = false := by decide
  have hl : Float32.c1333.le Float32.one = false := by decide
  have hmem : r2.normalizeMemory cfg = (r2, none) ∧ r2.ScaleDownRatio.eq Float32.zero = false ∧
      r2.ScaleDownRatio.le Float32.one = false := by
    unfold autoScaleRule.normalize at h hS hM hC hE
    split_ifs at h hS hM hC hE with h0 h1
    · obtain ⟨a1, a2⟩ := normalizeMemory_accepted cfg _ h
      rw [← hM, ← hC, ← hE] at a2
      rw [← hM] at a1
      rw [normalizeMemory_ratio] at hS
      exact ⟨normalizeMemory_of_accepted cfg r2 a1 a2, by rw [hS]; exact hc, by rw [hS]; exact hl⟩
    · obtain ⟨a1, a2⟩ := normalizeMemory_accepted cfg _ h
      rw [← hM, ← hC, ← hE] at a2
      rw [← hM] at a1
      rw [normalizeMemory_ratio] at hS
      exact ⟨normalizeMemory_of_accepted cfg r2 a1 a2, by rw [hS]; simpa using h0,
        by rw [hS]; simpa using h1⟩
  unfold autoScaleRule.normalize
  rw [if_neg (by simp [hmem.2.1]), if_neg (by simp [hmem.2.2])]
  exact hmem.1

theorem normalize_frame (cfg : Config) (r : autoScaleRule) :
    (r.normalize cfg).1.MetadataFilter = r.MetadataFilter ∧
      (r.normalize cfg).1.MaxContainerCount = r.MaxContainerCount ∧
      (r.normalize cfg).1.Enabled = r.Enabled ∧
      (r.normalize cfg).1.PreventRebalance = r.PreventRebalance := by
  unfold autoScaleRule.normalize
  split_ifs with h0 h1
  · obtain ⟨a, b, c, d⟩ := normalizeMemory_enabled cfg { r with ScaleDownRatio := Float32.c1333 }
    exact ⟨c, b, a, d⟩
  · exact ⟨rfl, rfl, rfl, rfl⟩
  · obtain ⟨a, b, c, d⟩ := normalizeMemory_enabled cfg r
    exact ⟨c, b, a, d⟩

theorem normalizeMemory_error (cfg : Config) (r : autoScaleRule)
    (h : (r.normalizeMemory cfg).2 = none) : (r.normalizeMemory cfg).1.Error = r.Error := by
  unfold autoScaleRule.normalizeMemory at h ⊢
  simp only at h ⊢
  split_ifs at h ⊢ <;> rfl

theorem normalize_error_kept (cfg : Config) (r : autoScaleRule)
    (h : (r.normalize cfg).2 = none) : (r.normalize cfg).1.Error = r.Error := by
  unfold autoScaleRule.normalize at h ⊢
  split_ifs at h ⊢ with h0 h1
  · exact normalizeMemory_error cfg _ h
  · exact normalizeMemory_error cfg _ h

theorem normalizeMemory_memory (cfg : Config) (r : autoScaleRule) :
    (r.normalizeMemory cfg).1.MaxMemoryRatio =
      if r.MaxMemoryRatio.eq Float32.zero = true then
        (cfg.maxUsedMemory.getD Float64.zero).toFloat32
      else r.MaxMemoryRatio := by
  unfold autoScaleRule.normalizeMemory
  simp only
  split_ifs <;> rfl

theorem find_upsertDoc (id : String) (d : ruleDocument) (hd : d.id = id)
    (docs : List ruleDocument) :
    (upsertDoc id d docs).find? (fun x => decide (x.id = id)) = some d := by
  induction docs with
  | nil => simp [upsertDoc, hd]
  | cons x xs ih =>
    unfold upsertDoc
    split_ifs with hx
    · simp [hd]
    · simp [hx, ih]

theorem unmarshal_marshal (r : autoScaleRule) :
    r.marshal.unmarshal = { r with Error := "" } := rfl

theorem update_success (cfg : Config) (db : Db) (r : autoScaleRule)
    (h : (r.update cfg db).2 = none) :
    (autoScaleRuleCollection cfg db).2 = none ∧ (r.normalize cfg).2 = none ∧
      db.opErr = none ∧
      (r.update cfg db).1 = ((r.normalize cfg).1,
        { db with docs := (upsertDoc (r.normalize cfg).1.MetadataFilter
            (r.normalize cfg).1.marshal db.docs) }) := by
  unfold autoScaleRule.update at h ⊢
  rcases hc : autoScaleRuleCollection cfg db with ⟨name, _ | e1⟩
  · rcases hn : r.normalize cfg with ⟨r1, _ | e2⟩
    · rw [hc, hn] at h
      simp only at h ⊢
      unfold Db.UpsertId at h ⊢
      rcases ho : db.opErr with _ | msg
      · simp
      · rw [ho] at h; simp at h
    · rw [hc, hn] at h; simp at h
  · rw [hc] at h; simp at h

/-- C7: when update(r) succeeds, a following get(r.metadataFilter) on the store
that update left succeeds, and the rule it returns has the metadataFilter,
maxContainerCount, enabled and preventRebalance of r, and the scaleDownRatio
and maxMemoryRatio that normalize produced from r: ratio 1.333 when r's was 0,
memory ratio the global default when r's was 0. It is the rule normalize
produced, read back from its document (the transient error text is empty),
and is that rule itself when r carried no error text. -/
theorem get_after_update (cfg : Config) (db : Db) (r : autoScaleRule)
    (h : (r.update cfg db).2 = none) :
    ∃ g : autoScaleRule,
      autoScaleRuleForMetadata cfg (r.update cfg db).1.2 r.MetadataFilter = (some g, none) ∧
      g.MetadataFilter = r.MetadataFilter ∧ g.MaxContainerCount = r.MaxContainerCount ∧
      g.Enabled = r.Enabled ∧ g.PreventRebalance = r.PreventRebalance ∧
      g.ScaleDownRatio = (r.normalize cfg).1.ScaleDownRatio ∧
      g.MaxMemoryRatio = (r.normalize cfg).1.MaxMemoryRatio ∧
      (r.ScaleDownRatio.eq Float32.zero = true → g.ScaleDownRatio = Float32.c1333) ∧
      (r.MaxMemoryRatio.eq Float32.zero = true →
        g.MaxMemoryRatio = (cfg.maxUsedMemory.getD Float64.zero).toFloat32) ∧
      g = (r.normalize cfg).1.marshal.unmarshal ∧
      (r.Error = "" → g = (r.normalize cfg).1) := by
  obtain ⟨hc, hn, ho, hu⟩ := update_success cfg db r h
  obtain ⟨f1, f2, f3, f4⟩ := normalize_frame cfg r
  have hst := normalize_stable cfg r (r.normalize cfg).1.marshal.unmarshal hn rfl rfl rfl rfl
  refine ⟨(r.normalize cfg).1.marshal.unmarshal, ?_, f1, f2, f3, f4, rfl, rfl, ?_, ?_, rfl, ?_⟩
  · rw [hu]
    have hc2 : autoScaleRuleCollection cfg
        { db with docs := (upsertDoc (r.normalize cfg).1.MetadataFilter
            (r.normalize cfg).1.marshal db.docs) } = autoScaleRuleCollection cfg db := rfl
    have hfind : Db.FindId
        { db with docs := (upsertDoc (r.normalize cfg).1.MetadataFilter
            (r.normalize cfg).1.marshal db.docs) } r.MetadataFilter =
        ((r.normalize cfg).1.marshal.unmarshal, none) := by
      unfold Db.FindId
      simp only [ho]
      rw [f1, find_upsertDoc r.MetadataFilter _ f1]
    unfold autoScaleRuleForMetadata
    rcases hcc : autoScaleRuleCollection cfg db with ⟨name, _ | e1⟩
    · simp only [hc2, hcc, hfind]
      simp [hst]
    · rw [hcc] at hc; simp at hc
  · intro hz
    exact normalize_ratio_of_zero cfg r hz
  · intro hz
    show (r.normalize cfg).1.MaxMemoryRatio = _
    unfold autoScaleRule.normalize
    split_ifs with h0 h1
    · rw [normalizeMemory_memory]; simp [hz]
    · unfold autoScaleRule.normalize at hn
      rw [if_neg h0, if_pos h1] at hn
      simp at hn
    · rw [normalizeMemory_memory]; simp [hz]
  · intro he
    have hk := normalize_error_kept cfg r hn
    rw [unmarshal_marshal]
    rw [he] at hk
    rw [← hk]

theorem get_after_update_witness :
    ∃ g : autoScaleRule,
      autoScaleRuleForMetadata memoryConfig (rulePoolA.update memoryConfig sampleDb).1.2
        rulePoolA.MetadataFilter = (some g, none) ∧
      g.MetadataFilter = rulePoolA.MetadataFilter ∧
      g.MaxContainerCount = rulePoolA.MaxContainerCount ∧
      g.Enabled = rulePoolA.Enabled ∧ g.PreventRebalance = rulePoolA.PreventRebalance ∧
      g.ScaleDownRatio = (rulePoolA.normalize memoryConfig).1.ScaleDownRatio ∧
      g.MaxMemoryRatio = (rulePoolA.normalize memoryConfig).1.MaxMemoryRatio ∧
      (rulePoolA.ScaleDownRatio.eq Float32.zero = true → g.ScaleDownRatio = Float32.c1333) ∧
      (rulePoolA.MaxMemoryRatio.eq Float32.zero = true →
        g.MaxMemoryRatio = (memoryConfig.maxUsedMemory.getD Float64.zero).toFloat32) ∧
      g = (rulePoolA.normalize memoryConfig).1.marshal.unmarshal ∧
      (rulePoolA.Error = "" → g = (rulePoolA.normalize memoryConfig).1) :=
  get_after_update memoryConfig sampleDb rulePoolA (by decide)

/-! ## Listing -/

theorem sinkInto_perm (x : autoScaleRule) (l : List autoScaleRule) :
    (sinkInto x l).Perm (x :: l) := by
  induction l with
  | nil => exact List.Perm.refl _
  | cons y ys ih =>
    unfold sinkInto
    split_ifs with h
    · exact ((List.Perm.cons y ih).trans (List.Perm.swap x y ys))
    · exact List.Perm.refl _

theorem sinkInto_descending (x : autoScaleRule) (l : List autoScaleRule)
    (hl : l.Pairwise (fun a b => b.MetadataFilter ≤ a.MetadataFilter)) :
    (sinkInto x l).Pairwise (fun a b => b.MetadataFilter ≤ a.MetadataFilter) := by
  induction l with
  | nil => exact List.pairwise_singleton _ _
  | cons y ys ih =>
    rw [List.pairwise_cons] at hl
    unfold sinkInto
    split_ifs with h
    · have hxy : x.MetadataFilter < y.MetadataFilter := by
        simpa [autoScaleRuleList.Less] using h
      rw [List.pairwise_cons]
      refine ⟨fun z hz => ?_, ih hl.2⟩
      have hz1 : z ∈ x :: ys := (sinkInto_perm x ys).subset hz
      rcases List.mem_cons.mp hz1 with hzx | hzy
      · rw [hzx]; exact le_of_lt hxy
      · exact hl.1 z hzy
    · have hyx : y.MetadataFilter ≤ x.MetadataFilter := by
        have : ¬ x.MetadataFilter < y.MetadataFilter := by
          simpa [autoScaleRuleList.Less] using h
        exact not_lt.mp this
      rw [List.pairwise_cons]
      refine ⟨fun z hz => ?_, List.pairwise_cons.mpr hl⟩
      rcases List.mem_cons.mp hz with hzy | hzy
      · rw [hzy]; exact hyx
      · exact le_trans (hl.1 z hzy) hyx

theorem foldl_sinkInto_descending (l acc : List autoScaleRule)
    (ha : acc.Pairwise (fun a b => b.MetadataFilter ≤ a.MetadataFilter)) :
    (l.foldl (fun acc x => sinkInto x acc) acc).Pairwise
      (fun a b => b.MetadataFilter ≤ a.MetadataFilter) := by
  induction l generalizing acc with
  | nil => exact ha
  | cons x xs ih => exact ih _ (sinkInto_descending x acc ha)

theorem foldl_sinkInto_perm (l acc : List autoScaleRule) :
    (l.foldl (fun acc x => sinkInto x acc) acc).Perm (acc ++ l) := by
  induction l generalizing acc with
  | nil => simp
  | cons x xs ih =>
    refine (ih (sinkInto x acc)).trans ?_
    refine ((sinkInto_perm x acc).append_right xs).trans ?_
    exact (List.perm_middle).symm

theorem sort_Sort_sorted (l : List autoScaleRule) :
    (sort_Sort l).Pairwise (fun a b => a.MetadataFilter ≤ b.MetadataFilter) := by
  unfold sort_Sort
  rw [List.pairwise_reverse]
  exact foldl_sinkInto_descending l [] List.Pairwise.nil

theorem sort_Sort_perm (l : List autoScaleRule) : (sort_Sort l).Perm l := by
  unfold sort_Sort
  refine (List.reverse_perm _).trans ?_
  simpa using foldl_sinkInto_perm l []

theorem listLoop_eq (cfg : Config) (rules : List autoScaleRule)
    (legacyRule : Option autoScaleRule) :
    listLoop cfg rules legacyRule =
      (rules.map (fun r => (r.normalize cfg).1),
        match legacyRule with
        | some l =>
          if rules.any (fun r => decide (r.MetadataFilter = l.MetadataFilter)) = true then none
          else some l
        | none => none) := by
  induction rules generalizing legacyRule with
  | nil => cases legacyRule <;> simp [listLoop]
  | cons r rs ih =>
    unfold listLoop
    simp only [ih]
    cases legacyRule with
    | none => simp
    | some l =>
      by_cases hr : r.MetadataFilter = l.MetadataFilter
      · simp [hr]
      · simp [hr]

theorem listAutoScaleRules_unreadable (cfg : Config) (db : Db)
    (h : (autoScaleRuleCollection cfg db).2 ≠ none ∨ db.opErr ≠ none) :
    (listAutoScaleRules cfg db).1 = [] := by
  unfold listAutoScaleRules
  rcases hc : autoScaleRuleCollection cfg db with ⟨name, _ | e1⟩
  · simp only
    unfold Db.FindAll
    rcases ho : db.opErr with _ | msg
    · rw [hc, ho] at h; simp at h
    · rfl
  · rfl

theorem listAutoScaleRules_readable (cfg : Config) (db : Db)
    (hc : (autoScaleRuleCollection cfg db).2 = none) (ho : db.opErr = none) :
    listAutoScaleRules cfg db =
      (sort_Sort
        (if (db.docs.map ruleDocument.unmarshal).any
            (fun r => decide (r.MetadataFilter = (legacyAutoScaleRule cfg).MetadataFilter)) = true
          then (db.docs.map ruleDocument.unmarshal).map (fun r => (r.normalize cfg).1)
          else (db.docs.map ruleDocument.unmarshal).map (fun r => (r.normalize cfg).1) ++
            [((legacyAutoScaleRule cfg).normalize cfg).1]), none) := by
  unfold listAutoScaleRules
  rcases hcc : autoScaleRuleCollection cfg db with ⟨name, _ | e1⟩
  · simp only
    unfold Db.FindAll
    simp only [ho, listLoop_eq]
    split_ifs with hany
    · rfl
    · rfl
  · rw [hcc] at hc; simp at hc

theorem listAutoScaleRules_shape (cfg : Config) (db : Db) :
    (listAutoScaleRules cfg db).1 = [] ∨
      ∃ l : List autoScaleRule, (listAutoScaleRules cfg db).1 = sort_Sort l := by
  by_cases h : (autoScaleRuleCollection cfg db).2 = none ∧ db.opErr = none
  · rw [listAutoScaleRules_readable cfg db h.1 h.2]
    exact Or.inr ⟨_, rfl⟩
  · refine Or.inl (listAutoScaleRules_unreadable cfg db ?_)
    by_cases h1 : (autoScaleRuleCollection cfg db).2 = none
    · exact Or.inr (fun h2 => h ⟨h1, h2⟩)
    · exact Or.inl h1

/-- C8: the rules that list() returns are sorted ascending by metadataFilter in
the lexicographic order of strings: each rule's metadataFilter is `<=` that of
the rule after it, and of every later rule. This holds for every store state
and configuration, in particular whenever list() succeeds. -/
theorem list_sorted (cfg : Config) (db : Db) :
    (listAutoScaleRules cfg db).1.Chain'
        (fun a b => a.MetadataFilter ≤ b.MetadataFilter) ∧
      (listAutoScaleRules cfg db).1.Pairwise
        (fun a b => a.MetadataFilter ≤ b.MetadataFilter) := by
  have hp : (listAutoScaleRules cfg db).1.Pairwise
      (fun a b => a.MetadataFilter ≤ b.MetadataFilter) := by
    rcases listAutoScaleRules_shape cfg db with h | ⟨l, h⟩
    · rw [h]; exact List.Pairwise.nil
    · rw [h]; exact sort_Sort_sorted l
  exact ⟨List.Pairwise.chain' hp, hp⟩

theorem normalized_keys (cfg : Config) (docs : List ruleDocument) :
    ((docs.map ruleDocument.unmarshal).map (fun r => (r.normalize cfg).1)).map
        autoScaleRule.MetadataFilter = docs.map ruleDocument.id := by
  induction docs with
  | nil => rfl
  | cons d ds ih =>
    simp only [List.map_cons, List.cons.injEq]
    exact ⟨(normalize_frame cfg d.unmarshal).1, ih⟩

/-- C9: when the persisted rules have pairwise distinct metadataFilter keys,
no two rules returned by list() share a metadataFilter, under every
configuration; the legacy rule is added only when no persisted rule has its
filter. -/
theorem list_keys_distinct (cfg : Config) (db : Db)
    (h : (db.docs.map ruleDocument.id).Nodup) :
    ((listAutoScaleRules cfg db).1.map autoScaleRule.MetadataFilter).Nodup := by
  by_cases hr : (autoScaleRuleCollection cfg db).2 = none ∧ db.opErr = none
  · rw [listAutoScaleRules_readable cfg db hr.1 hr.2]
    simp only
    refine ((sort_Sort_perm _).map autoScaleRule.MetadataFilter).nodup_iff.mpr ?_
    split_ifs with hany
    · rw [normalized_keys]; exact h
    · rw [List.map_append, normalized_keys, List.map_singleton]
      rw [List.nodup_append]
      refine ⟨h, List.nodup_singleton _, ?_⟩
      intro k hk hk2
      rw [List.mem_singleton] at hk2
      apply hany
      rw [List.any_eq_true]
      obtain ⟨d, hd, hdk⟩ := List.mem_map.mp hk
      refine ⟨d.unmarshal, List.mem_map.mpr ⟨d, hd, rfl⟩, ?_⟩
      rw [decide_eq_true_eq]
      rw [(normalize_frame cfg (legacyAutoScaleRule cfg)).1] at hk2
      show d.id = _
      rw [hdk, hk2]
  · have he : (listAutoScaleRules cfg db).1 = [] := by
      refine listAutoScaleRules_unreadable cfg db ?_
      by_cases h1 : (autoScaleRuleCollection cfg db).2 = none
      · exact Or.inr (fun h2 => hr ⟨h1, h2⟩)
      · exact Or.inl h1
    rw [he]
    exact List.nodup_nil

theorem list_keys_distinct_witness :
    ((listAutoScaleRules legacyConfig sampleDb).1.map autoScaleRule.MetadataFilter).Nodup :=
  list_keys_distinct legacyConfig sampleDb (by decide)

theorem find_of_exists (docs : List ruleDocument) (f : String)
    (h : ∃ x ∈ docs, x.id = f) :
    ∃ d, docs.find? (fun x => decide (x.id = f)) = some d ∧ d ∈ docs ∧ d.id = f := by
  induction docs with
  | nil => obtain ⟨x, hx, _⟩ := h; cases hx
  | cons y ys ih =>
    by_cases hy : y.id = f
    · exact ⟨y, by simp [List.find?, hy], List.mem_cons_self _ _, hy⟩
    · obtain ⟨x, hx, hxf⟩ := h
      rcases List.mem_cons.mp hx with hxy | hxy
      · rw [hxy] at hxf; exact absurd hxf hy
      · obtain ⟨d, hd1, hd2, hd3⟩ := ih ⟨x, hxy, hxf⟩
        exact ⟨d, by simp [List.find?, hy, hd1], List.mem_cons_of_mem _ hd2, hd3⟩

theorem get_of_found (cfg : Config) (db : Db) (f : String) (d : ruleDocument)
    (hc : (autoScaleRuleCollection cfg db).2 = none) (ho : db.opErr = none)
    (hd : db.docs.find? (fun x => decide (x.id = f)) = some d) :
    autoScaleRuleForMetadata cfg db f =
      match d.unmarshal.normalize cfg with
      | (_, some err) => (none, some err)
      | (rule, none) => (some rule, none) := by
  unfold autoScaleRuleForMetadata
  rcases hcc : autoScaleRuleCollection cfg db with ⟨name, _ | e1⟩
  · have hf : db.FindId f = (d.unmarshal, none) := by
      unfold Db.FindId
      simp only [ho, hd]
    simp only [hf]
    simp
  · rw [hcc] at hc; simp at hc

/-- C10, as stated, fails. With a persisted rule for the legacy filter `pool=b`
whose scaleDownRatio is `0.9`, get("pool=b") returns the normalization error
and no rule; and when the collection cannot be obtained list() returns no rule
at all although rules are persisted. -/
theorem list_get_persisted_counterexample :
    ((∃ d ∈ sampleDb.docs, d.id = (legacyAutoScaleRule legacyConfig).MetadataFilter) ∧
      (autoScaleRuleForMetadata legacyConfig sampleDb
        (legacyAutoScaleRule legacyConfig).MetadataFilter).1 = none ∧
      (autoScaleRuleForMetadata legacyConfig sampleDb
        (legacyAutoScaleRule legacyConfig).MetadataFilter).2 ≠ none) ∧
    ((∃ d ∈ sampleDb.docs,
        d.id = (legacyAutoScaleRule legacyConfigNoCollection).MetadataFilter) ∧
      listAutoScaleRules legacyConfigNoCollection sampleDb =
        ([], some (GoError.keyNotFound "docker:collection"))) := by
  decide

/-- C10, amended: when the store can be read (the collection is obtained and
the server answers) and some persisted rule has the metadataFilter f of the
legacy rule, list() returns no error and exactly the normalized persisted
rules, sorted: as many rules as are persisted, none built from the legacy
configuration; and get(f) resolves to the persisted record with key f: it
returns that record normalized when its normalization succeeds, and its
normalization error and no rule otherwise. No field comes from the legacy
rule. -/
theorem list_and_get_prefer_persisted (cfg : Config) (db : Db)
    (hc : (autoScaleRuleCollection cfg db).2 = none) (ho : db.opErr = none)
    (hex : ∃ x ∈ db.docs, x.id = (legacyAutoScaleRule cfg).MetadataFilter) :
    listAutoScaleRules cfg db =
        (sort_Sort (db.docs.map (fun x => (x.unmarshal.normalize cfg).1)), none) ∧
      (listAutoScaleRules cfg db).1.Perm
        (db.docs.map (fun x => (x.unmarshal.normalize cfg).1)) ∧
      (listAutoScaleRules cfg db).1.length = db.docs.length ∧
      ∃ d ∈ db.docs, d.id = (legacyAutoScaleRule cfg).MetadataFilter ∧
        db.docs.find? (fun x => decide (x.id = (legacyAutoScaleRule cfg).MetadataFilter)) =
          some d ∧
        ((d.unmarshal.normalize cfg).2 = none →
          autoScaleRuleForMetadata cfg db (legacyAutoScaleRule cfg).MetadataFilter =
            (some (d.unmarshal.normalize cfg).1, none)) ∧
        (∀ e : GoError, (d.unmarshal.normalize cfg).2 = some e →
          autoScaleRuleForMetadata cfg db (legacyAutoScaleRule cfg).MetadataFilter =
            (none, some e)) := by
  have hlist : listAutoScaleRules cfg db =
      (sort_Sort (db.docs.map (fun x => (x.unmarshal.normalize cfg).1)), none) := by
    rw [listAutoScaleRules_readable cfg db hc ho]
    have hany : (db.docs.map ruleDocument.unmarshal).any
        (fun r => decide (r.MetadataFilter = (legacyAutoScaleRule cfg).MetadataFilter)) = true := by
      rw [List.any_eq_true]
      obtain ⟨x, hx, hxf⟩ := hex
      exact ⟨x.unmarshal, List.mem_map.mpr ⟨x, hx, rfl⟩, by simpa using hxf⟩
    rw [if_pos hany, List.map_map]
    rfl
  obtain ⟨d, hd1, hd2, hd3⟩ := find_of_exists db.docs _ hex
  have hget := get_of_found cfg db _ d hc ho hd1
  refine ⟨hlist, ?_, ?_, d, hd2, hd3, hd1, ?_, ?_⟩
  · rw [hlist]; exact sort_Sort_perm _
  · rw [hlist]
    simpa using (sort_Sort_perm (db.docs.map (fun x => (x.unmarshal.normalize cfg).1))).length_eq
  · intro hn
    rw [hget]
    rcases hnn : d.unmarshal.normalize cfg with ⟨g, _ | e⟩
    · rfl
    · rw [hnn] at hn; simp at hn
  · intro e hn
    rw [hget]
    rcases hnn : d.unmarshal.normalize cfg with ⟨g, _ | e2⟩
    · rw [hnn] at hn; simp at hn
    · rw [hnn] at hn
      simp only [Option.some.injEq] at hn
      rw [hn]

theorem list_and_get_prefer_persisted_witness :
    listAutoScaleRules legacyConfig sampleDb =
        (sort_Sort (sampleDb.docs.map (fun x => (x.unmarshal.normalize legacyConfig).1)), none) ∧
      (listAutoScaleRules legacyConfig sampleDb).1.Perm
        (sampleDb.docs.map (fun x => (x.unmarshal.normalize legacyConfig).1)) ∧
      (listAutoScaleRules legacyConfig sampleDb).1.length = sampleDb.docs.length ∧
      ∃ d ∈ sampleDb.docs, d.id = (legacyAutoScaleRule legacyConfig).MetadataFilter ∧
        sampleDb.docs.find?
            (fun x => decide (x.id = (legacyAutoScaleRule legacyConfig).MetadataFilter)) =
          some d ∧
        ((d.unmarshal.normalize legacyConfig).2 = none →
          autoScaleRuleForMetadata legacyConfig sampleDb
              (legacyAutoScaleRule legacyConfig).MetadataFilter =
            (some (d.unmarshal.normalize legacyConfig).1, none)) ∧
        (∀ e : GoError, (d.unmarshal.normalize legacyConfig).2 = some e →
          autoScaleRuleForMetadata legacyConfig sampleDb
              (legacyAutoScaleRule legacyConfig).MetadataFilter =
            (none, some e)) :=
  list_and_get_prefer_persisted legacyConfig sampleDb (by decide) (by decide) (by decide)

theorem mem_list_of_readable (cfg : Config) (db : Db)
    (hc : (autoScaleRuleCollection cfg db).2 = none) (ho : db.opErr = none)
    (g : autoScaleRule) :
    g ∈ (listAutoScaleRules cfg db).1 ↔
      (∃ d ∈ db.docs, g = (d.unmarshal.normalize cfg).1) ∨
      ((∀ d ∈ db.docs, d.id ≠ (legacyAutoScaleRule cfg).MetadataFilter) ∧
        g = ((legacyAutoScaleRule cfg).normalize cfg).1) := by
  rw [listAutoScaleRules_readable cfg db hc ho]
  simp only
  rw [(sort_Sort_perm _).mem_iff]
  split_ifs with hany
  · rw [List.any_eq_true] at hany
    obtain ⟨x, hx, hxf⟩ := hany
    obtain ⟨d, hd, hdx⟩ := List.mem_map.mp hx
    constructor
    · intro hg
      obtain ⟨y, hy, hyg⟩ := List.mem_map.mp hg
      obtain ⟨d2, hd2, hd2y⟩ := List.mem_map.mp hy
      exact Or.inl ⟨d2, hd2, by rw [← hyg, ← hd2y]⟩
    · rintro (⟨d2, hd2, hg⟩ | ⟨hno, _⟩)
      · rw [hg]
        exact List.mem_map.mpr ⟨d2.unmarshal, List.mem_map.mpr ⟨d2, hd2, rfl⟩, rfl⟩
      · exfalso
        apply hno d hd
        rw [← hdx] at hxf
        simpa [ruleDocument.unmarshal] using hxf
  · have hno : ∀ d ∈ db.docs, d.id ≠ (legacyAutoScaleRule cfg).MetadataFilter := by
      intro d hd hdf
      apply hany
      rw [List.any_eq_true]
      exact ⟨d.unmarshal, List.mem_map.mpr ⟨d, hd, rfl⟩, by simpa [ruleDocument.unmarshal] using hdf⟩
    rw [List.mem_append, List.mem_singleton]
    constructor
    · rintro (hg | hg)
      · obtain ⟨y, hy, hyg⟩ := List.mem_map.mp hg
        obtain ⟨d2, hd2, hd2y⟩ := List.mem_map.mp hy
        exact Or.inl ⟨d2, hd2, by rw [← hyg, ← hd2y]⟩
      · exact Or.inr ⟨hno, hg⟩
    · rintro (⟨d2, hd2, hg⟩ | ⟨_, hg⟩)
      · rw [hg]
        exact Or.inl (List.mem_map.mpr ⟨d2.unmarshal, List.mem_map.mpr ⟨d2, hd2, rfl⟩, rfl⟩)
      · exact Or.inr hg

theorem list_without_override (cfg : Config) (db : Db)
    (hc : (autoScaleRuleCollection cfg db).2 = none) (ho : db.opErr = none)
    (hno : ∀ d ∈ db.docs, d.id ≠ (legacyAutoScaleRule cfg).MetadataFilter) :
    listAutoScaleRules cfg db =
      (sort_Sort (db.docs.map (fun x => (x.unmarshal.normalize cfg).1) ++
        [((legacyAutoScaleRule cfg).normalize cfg).1]), none) := by
  rw [listAutoScaleRules_readable cfg db hc ho]
  have hany : ¬ ((db.docs.map ruleDocument.unmarshal).any
      (fun r => decide (r.MetadataFilter = (legacyAutoScaleRule cfg).MetadataFilter)) = true) := by
    intro h
    rw [List.any_eq_true] at h
    obtain ⟨x, hx, hxf⟩ := h
    obtain ⟨d, hd, hdx⟩ := List.mem_map.mp hx
    apply hno d hd
    rw [← hdx] at hxf
    simpa [ruleDocument.unmarshal] using hxf
  rw [if_neg hany, List.map_map]
  rfl

theorem sort_Sort_singleton (x : autoScaleRule) : sort_Sort [x] = [x] := rfl

theorem legacy_ratio_default (cfg : Config)
    (h : (legacyAutoScaleRule cfg).ScaleDownRatio.eq Float32.zero = true) :
    ((legacyAutoScaleRule cfg).normalize cfg).1.ScaleDownRatio = Float32.c1333 :=
  normalize_ratio_of_zero cfg _ h

theorem narrowMag_one_zero : Float64.narrowMag 1 0 = 0 := by
  unfold Float64.narrowMag
  simp only [Nat.zero_div, Nat.zero_mod]
  have h1 : ¬ (897 ≤ 1) := by decide
  simp only [h1, if_false]
  rw [if_neg]
  rintro (h | ⟨_, h⟩)
  · exact absurd h (Nat.not_lt_zero _)
  · exact absurd h (by decide)

theorem toFloat32_signed_zero (neg : Bool) :
    (Float64.fin neg 0 0).toFloat32 = Float32.fin neg 0 0 := by
  unfold Float64.toFloat32
  simp only [Fin.val_zero, if_true, narrowMag_one_zero]
  rfl

theorem toFloat32_zero : Float64.zero.toFloat32 = Float32.zero :=
  toFloat32_signed_zero false

/-- C11, as stated, fails: on the empty store with no configuration key set at
all, "docker:collection" included, list() returns the error of
`autoScaleRuleCollection` and no rule, not the legacy rule. -/
theorem list_legacy_counterexample :
    (∀ d ∈ emptyDb.docs, d.id ≠ (legacyAutoScaleRule emptyConfig).MetadataFilter) ∧
      listAutoScaleRules emptyConfig emptyDb =
        ([], some (GoError.keyNotFound "docker:collection")) := by
  decide

/-- C11, amended: when the store can be read (the collection is obtained and
the server answers) and no persisted rule has the legacy rule's
metadataFilter, list() returns no error and a permutation of the normalized
persisted rules plus exactly one extra rule, the normalized legacy rule: it is
enabled, its filter is the configured one (the empty string when the key is
not set), and its scaleDownRatio is 1.333 when the configured ratio is absent
or 0. On an empty store list() returns exactly that one rule. -/
theorem list_adds_legacy (cfg : Config) (db : Db)
    (hc : (autoScaleRuleCollection cfg db).2 = none) (ho : db.opErr = none)
    (hno : ∀ d ∈ db.docs, d.id ≠ (legacyAutoScaleRule cfg).MetadataFilter) :
    (listAutoScaleRules cfg db).2 = none ∧
      (listAutoScaleRules cfg db).1.Perm
        (db.docs.map (fun x => (x.unmarshal.normalize cfg).1) ++
          [((legacyAutoScaleRule cfg).normalize cfg).1]) ∧
      (listAutoScaleRules cfg db).1.length = db.docs.length + 1 ∧
      ((legacyAutoScaleRule cfg).normalize cfg).1.Enabled = true ∧
      ((legacyAutoScaleRule cfg).normalize cfg).1.MetadataFilter =
        cfg.metadataFilter.getD "" ∧
      ((cfg.scaleDownRatio = none ∨
          ∃ neg : Bool, cfg.scaleDownRatio = some (Float64.fin neg 0 0)) →
        ((legacyAutoScaleRule cfg).normalize cfg).1.ScaleDownRatio = Float32.c1333) ∧
      (db.docs = [] →
        (listAutoScaleRules cfg db).1 = [((legacyAutoScaleRule cfg).normalize cfg).1]) := by
  have hl := list_without_override cfg db hc ho hno
  obtain ⟨f1, _, f3, _⟩ := normalize_frame cfg (legacyAutoScaleRule cfg)
  refine ⟨by rw [hl], by rw [hl]; exact sort_Sort_perm _, ?_, f3, f1, ?_, ?_⟩
  · rw [hl]
    simpa using (sort_Sort_perm (db.docs.map (fun x => (x.unmarshal.normalize cfg).1) ++
      [((legacyAutoScaleRule cfg).normalize cfg).1])).length_eq
  · intro hz
    apply legacy_ratio_default
    rcases hz with hz | ⟨neg, hz⟩
    · show ((cfg.scaleDownRatio.getD Float64.zero).toFloat32).eq Float32.zero = true
      rw [hz, Option.getD_none, toFloat32_zero]
      rfl
    · show ((cfg.scaleDownRatio.getD Float64.zero).toFloat32).eq Float32.zero = true
      rw [hz, Option.getD_some, toFloat32_signed_zero]
      cases neg <;> rfl
  · intro he
    rw [hl, he]
    rfl

theorem list_adds_legacy_witness :
    (listAutoScaleRules legacyConfig emptyDb).2 = none ∧
      (listAutoScaleRules legacyConfig emptyDb).1.Perm
        (emptyDb.docs.map (fun x => (x.unmarshal.normalize legacyConfig).1) ++
          [((legacyAutoScaleRule legacyConfig).normalize legacyConfig).1]) ∧
      (listAutoScaleRules legacyConfig emptyDb).1.length = emptyDb.docs.length + 1 ∧
      ((legacyAutoScaleRule legacyConfig).normalize legacyConfig).1.Enabled = true ∧
      ((legacyAutoScaleRule legacyConfig).normalize legacyConfig).1.MetadataFilter =
        legacyConfig.metadataFilter.getD "" ∧
      ((legacyConfig.scaleDownRatio = none ∨
          ∃ neg : Bool, legacyConfig.scaleDownRatio = some (Float64.fin neg 0 0)) →
        ((legacyAutoScaleRule legacyConfig).normalize legacyConfig).1.ScaleDownRatio =
          Float32.c1333) ∧
      (emptyDb.docs = [] →
        (listAutoScaleRules legacyConfig emptyDb).1 =
          [((legacyAutoScaleRule legacyConfig).normalize legacyConfig).1]) :=
  list_adds_legacy legacyConfig emptyDb (by decide) (by decide) (by decide)

theorem normalizeMemory_failure (cfg : Config) (r : autoScaleRule) (e : GoError)
    (h : (r.normalizeMemory cfg).2 = some e) :
    (r.normalizeMemory cfg).1.Error = e.Error ∧ e.Error ≠ "" := by
  obtain ⟨r1, _, h2⟩ := normalizeMemory_cases cfg r
  rw [h2] at h ⊢
  split_ifs at h ⊢ with hc
  simp only [Option.some.injEq] at h
  subst h
  exact ⟨rfl, infoMessage_ne_empty⟩

theorem normalize_failure (cfg : Config) (r : autoScaleRule) (e : GoError)
    (h : (r.normalize cfg).2 = some e) :
    (r.normalize cfg).1.Error = e.Error ∧ e.Error ≠ "" := by
  unfold autoScaleRule.normalize at h ⊢
  split_ifs at h ⊢ with h0 h1
  · exact normalizeMemory_failure cfg _ e h
  · simp only [Option.some.injEq] at h
    subst h
    exact ⟨rfl, ratioMessage_ne_empty _⟩
  · exact normalizeMemory_failure cfg _ e h

theorem normalize_error_flag (cfg : Config) (x : autoScaleRule) (hx : x.Error = "") :
    (x.normalize cfg).1.Error ≠ "" ↔ (x.normalize cfg).2 ≠ none := by
  rcases hn : (x.normalize cfg).2 with _ | e
  · have hk := normalize_error_kept cfg x hn
    rw [hk, hx]
    simp
  · obtain ⟨h1, h2⟩ := normalize_failure cfg x e hn
    rw [h1]
    simp [h2]

theorem findAll_ok (db : Db) (h : db.FindAll.2 = none) : db.opErr = none := by
  unfold Db.FindAll at h
  rcases ho : db.opErr with _ | msg
  · rfl
  · rw [ho] at h; simp at h

/-- C12: when the retrieval succeeds (the collection is obtained and find-all
answers), list() returns no error even when rules fail normalization: the
metadataFilter of every persisted rule appears in the result, and every
returned rule is a freshly read persisted rule or the legacy rule, with an
empty error text, after normalize; its error field is non-empty exactly when
that normalize call failed. -/
theorem list_flags_invalid_rules (cfg : Config) (db : Db)
    (hc : (autoScaleRuleCollection cfg db).2 = none) (hf : db.FindAll.2 = none) :
    (listAutoScaleRules cfg db).2 = none ∧
      (∀ d ∈ db.docs, d.id ∈ (listAutoScaleRules cfg db).1.map autoScaleRule.MetadataFilter) ∧
      (∀ g ∈ (listAutoScaleRules cfg db).1, ∃ x : autoScaleRule,
        ((∃ d ∈ db.docs, x = d.unmarshal) ∨ x = legacyAutoScaleRule cfg) ∧
        x.Error = "" ∧ g = (x.normalize cfg).1 ∧
        (g.Error ≠ "" ↔ (x.normalize cfg).2 ≠ none)) := by
  have ho : db.opErr = none := findAll_ok db hf
  refine ⟨by rw [listAutoScaleRules_readable cfg db hc ho], ?_, ?_⟩
  · intro d hd
    refine List.mem_map.mpr ⟨(d.unmarshal.normalize cfg).1, ?_, ?_⟩
    · exact (mem_list_of_readable cfg db hc ho _).mpr (Or.inl ⟨d, hd, rfl⟩)
    · exact (normalize_frame cfg d.unmarshal).1
  · intro g hg
    rcases (mem_list_of_readable cfg db hc ho g).mp hg with ⟨d, hd, hgd⟩ | ⟨_, hgl⟩
    · refine ⟨d.unmarshal, Or.inl ⟨d, hd, rfl⟩, rfl, hgd, ?_⟩
      rw [hgd]
      exact normalize_error_flag cfg d.unmarshal rfl
    · refine ⟨legacyAutoScaleRule cfg, Or.inr rfl, rfl, hgl, ?_⟩
      rw [hgl]
      exact normalize_error_flag cfg (legacyAutoScaleRule cfg) rfl

theorem list_flags_invalid_rules_witness :
    (listAutoScaleRules legacyConfig sampleDb).2 = none ∧
      (∀ d ∈ sampleDb.docs,
        d.id ∈ (listAutoScaleRules legacyConfig sampleDb).1.map autoScaleRule.MetadataFilter) ∧
      (∀ g ∈ (listAutoScaleRules legacyConfig sampleDb).1, ∃ x : autoScaleRule,
        ((∃ d ∈ sampleDb.docs, x = d.unmarshal) ∨ x = legacyAutoScaleRule legacyConfig) ∧
        x.Error = "" ∧ g = (x.normalize legacyConfig).1 ∧
        (g.Error ≠ "" ↔ (x.normalize legacyConfig).2 ≠ none)) :=
  list_flags_invalid_rules legacyConfig sampleDb (by decide) (by decide)

/-! ## Failing retrieval -/

theorem list_error_no_data (cfg : Config) (db : Db)
    (h : (listAutoScaleRules cfg db).2 ≠ none) : (listAutoScaleRules cfg db).1 = [] := by
  by_cases hr : (autoScaleRuleCollection cfg db).2 = none ∧ db.opErr = none
  · rw [listAutoScaleRules_readable cfg db hr.1 hr.2] at h
    exact absurd rfl h
  · refine listAutoScaleRules_unreadable cfg db ?_
    by_cases h1 : (autoScaleRuleCollection cfg db).2 = none
    · exact Or.inr (fun h2 => hr ⟨h1, h2⟩)
    · exact Or.inl h1

/-- C13, as stated, fails: on a store whose find-all fails after it delivered
one document, list() returns the retrieval error and no rule at all; the
document delivered is discarded. -/
theorem list_discards_delivered_counterexample :
    faultyDb.FindAll.1.length = 1 ∧
      faultyDb.FindAll.2 = some (GoError.driver "connection reset") ∧
      listAutoScaleRules memoryConfig faultyDb =
        ([], some (GoError.driver "connection reset")) := by
  decide

/-- C13, amended: when the store's find-all retrieval fails, list() returns
the store's retrieval error and no rule data: whatever the store delivered
before the failure is discarded. In every case a non-nil error and returned
rule data are mutually exclusive. -/
theorem list_failed_retrieval (cfg : Config) (db : Db) :
    ((autoScaleRuleCollection cfg db).2 = none →
      ∀ e : GoError, db.FindAll.2 = some e → listAutoScaleRules cfg db = ([], some e)) ∧
    ((listAutoScaleRules cfg db).2 ≠ none → (listAutoScaleRules cfg db).1 = []) := by
  refine ⟨?_, list_error_no_data cfg db⟩
  intro hc e he
  unfold listAutoScaleRules
  rcases hcc : autoScaleRuleCollection cfg db with ⟨name, _ | e1⟩
  · rcases hf : db.FindAll with ⟨rules, _ | e2⟩
    · rw [hf] at he; simp at he
    · rw [hf] at he
      simp only [Option.some.injEq] at he
      subst he
      rfl
  · rw [hcc] at hc; simp at hc

theorem list_failed_retrieval_witness :
    ((autoScaleRuleCollection memoryConfig faultyDb).2 = none →
      ∀ e : GoError, faultyDb.FindAll.2 = some e →
        listAutoScaleRules memoryConfig faultyDb = ([], some e)) ∧
    ((listAutoScaleRules memoryConfig faultyDb).2 ≠ none →
      (listAutoScaleRules memoryConfig faultyDb).1 = []) :=
  list_failed_retrieval memoryConfig faultyDb

/-! ## Lookup by key -/

theorem get_eq_resolve (cfg : Config) (db : Db) (k : String)
    (hc : (autoScaleRuleCollection cfg db).2 = none) :
    autoScaleRuleForMetadata cfg db k =
      match (resolveRule cfg db k).2 with
      | some err => (none, some err)
      | none =>
        match (resolveRule cfg db k).1.normalize cfg with
        | (_, some err) => (none, some err)
        | (rule, none) => (some rule, none) := by
  unfold autoScaleRuleForMetadata
  rcases hcc : autoScaleRuleCollection cfg db with ⟨name, _ | e1⟩
  · rfl
  · rw [hcc] at hc; simp at hc

theorem get_unreadable (cfg : Config) (db : Db) (k : String)
    (h : (autoScaleRuleCollection cfg db).2 ≠ none ∨ db.opErr ≠ none) :
    (autoScaleRuleForMetadata cfg db k).1 = none := by
  by_cases hc : (autoScaleRuleCollection cfg db).2 = none
  · rcases h with h | h
    · exact absurd hc h
    · rw [get_eq_resolve cfg db k hc]
      rcases ho : db.opErr with _ | msg
      · exact absurd ho h
      · have hr : resolveRule cfg db k = (autoScaleRule.zeroValue, some (GoError.driver msg)) := by
          unfold resolveRule Db.FindId
          simp [ho]
        rw [hr]
  · unfold autoScaleRuleForMetadata
    rcases hcc : autoScaleRuleCollection cfg db with ⟨name, _ | e1⟩
    · rw [hcc] at hc; simp at hc
    · rfl

theorem find_none_iff (docs : List ruleDocument) (k : String) :
    docs.find? (fun x => decide (x.id = k)) = none ↔ ∀ d ∈ docs, d.id ≠ k := by
  rw [List.find?_eq_none]
  simp

theorem resolveRule_found (cfg : Config) (db : Db) (k : String) (d : ruleDocument)
    (ho : db.opErr = none) (hd : db.docs.find? (fun x => decide (x.id = k)) = some d) :
    resolveRule cfg db k = (d.unmarshal, none) := by
  unfold resolveRule Db.FindId
  simp [ho, hd]

theorem resolveRule_legacy (cfg : Config) (db : Db) (k : String)
    (ho : db.opErr = none) (hno : ∀ d ∈ db.docs, d.id ≠ k)
    (hk : (legacyAutoScaleRule cfg).MetadataFilter = k) :
    resolveRule cfg db k = (legacyAutoScaleRule cfg, none) := by
  have hf := (find_none_iff db.docs k).mpr hno
  unfold resolveRule Db.FindId
  simp [ho, hf, hk]

theorem resolveRule_missing (cfg : Config) (db : Db) (k : String)
    (ho : db.opErr = none) (hno : ∀ d ∈ db.docs, d.id ≠ k)
    (hk : (legacyAutoScaleRule cfg).MetadataFilter ≠ k) :
    resolveRule cfg db k = (autoScaleRule.zeroValue, some GoError.ErrNotFound) := by
  have hf := (find_none_iff db.docs k).mpr hno
  unfold resolveRule Db.FindId
  simp [ho, hf, hk]

theorem get_of_resolved (cfg : Config) (db : Db) (k : String) (x : autoScaleRule)
    (hc : (autoScaleRuleCollection cfg db).2 = none)
    (hr : resolveRule cfg db k = (x, none)) :
    ((x.normalize cfg).2 = none →
        autoScaleRuleForMetadata cfg db k = (some (x.normalize cfg).1, none)) ∧
      (∀ e : GoError, (x.normalize cfg).2 = some e →
        autoScaleRuleForMetadata cfg db k = (none, some e)) := by
  rw [get_eq_resolve cfg db k hc, hr]
  rcases hn : x.normalize cfg with ⟨g, _ | e⟩
  · exact ⟨fun _ => rfl, fun e he => by simp at he⟩
  · refine ⟨fun h => by simp at h, fun e2 he => ?_⟩
    simp only [Option.some.injEq] at he
    rw [he]

/-- C14, as stated, fails: with "docker:collection" not set, get of a key that
has no persisted record and differs from the legacy filter returns the error
of `autoScaleRuleCollection`, not the not-found error. -/
theorem get_missing_counterexample :
    (∀ d ∈ emptyDb.docs, d.id ≠ "missing-pool") ∧
      (legacyAutoScaleRule emptyConfig).MetadataFilter ≠ "missing-pool" ∧
      autoScaleRuleForMetadata emptyConfig emptyDb "missing-pool" =
        (none, some (GoError.keyNotFound "docker:collection")) ∧
      (autoScaleRuleForMetadata emptyConfig emptyDb "missing-pool").2 ≠
        some GoError.ErrNotFound := by
  decide

/-- C14, amended: when the store can be read (the collection is obtained and
the server answers), for every key k with no persisted record: if the legacy
rule's metadataFilter differs from k, get(k) returns the not-found error and no
rule; if it equals k, get(k) resolves to the legacy rule: it returns the
normalized legacy rule when its normalization succeeds, and the normalization
error and no rule otherwise. -/
theorem get_without_record (cfg : Config) (db : Db) (k : String)
    (hc : (autoScaleRuleCollection cfg db).2 = none) (ho : db.opErr = none)
    (hno : ∀ d ∈ db.docs, d.id ≠ k) :
    ((legacyAutoScaleRule cfg).MetadataFilter ≠ k →
      autoScaleRuleForMetadata cfg db k = (none, some GoError.ErrNotFound)) ∧
    ((legacyAutoScaleRule cfg).MetadataFilter = k →
      resolveRule cfg db k = (legacyAutoScaleRule cfg, none) ∧
      (((legacyAutoScaleRule cfg).normalize cfg).2 = none →
        autoScaleRuleForMetadata cfg db k =
          (some ((legacyAutoScaleRule cfg).normalize cfg).1, none)) ∧
      (∀ e : GoError, ((legacyAutoScaleRule cfg).normalize cfg).2 = some e →
        autoScaleRuleForMetadata cfg db k = (none, some e))) := by
  constructor
  · intro hk
    rw [get_eq_resolve cfg db k hc, resolveRule_missing cfg db k ho hno hk]
  · intro hk
    have hr := resolveRule_legacy cfg db k ho hno hk
    exact ⟨hr, get_of_resolved cfg db k _ hc hr⟩

theorem get_without_record_witness :
    ((legacyAutoScaleRule memoryConfig).MetadataFilter ≠ "missing-pool" →
      autoScaleRuleForMetadata memoryConfig emptyDb "missing-pool" =
        (none, some GoError.ErrNotFound)) ∧
    ((legacyAutoScaleRule memoryConfig).MetadataFilter = "missing-pool" →
      resolveRule memoryConfig emptyDb "missing-pool" =
        (legacyAutoScaleRule memoryConfig, none) ∧
      (((legacyAutoScaleRule memoryConfig).normalize memoryConfig).2 = none →
        autoScaleRuleForMetadata memoryConfig emptyDb "missing-pool" =
          (some ((legacyAutoScaleRule memoryConfig).normalize memoryConfig).1, none)) ∧
      (∀ e : GoError, ((legacyAutoScaleRule memoryConfig).normalize memoryConfig).2 = some e →
        autoScaleRuleForMetadata memoryConfig emptyDb "missing-pool" = (none, some e))) :=
  get_without_record memoryConfig emptyDb "missing-pool" (by decide) (by decide) (by decide)

theorem resolveRule_ok (cfg : Config) (db : Db) (k : String) (x : autoScaleRule)
    (hr : resolveRule cfg db k = (x, none)) :
    db.opErr = none ∧
      ((∃ d, db.docs.find? (fun y => decide (y.id = k)) = some d ∧ x = d.unmarshal) ∨
        ((∀ d ∈ db.docs, d.id ≠ k) ∧ (legacyAutoScaleRule cfg).MetadataFilter = k ∧
          x = legacyAutoScaleRule cfg)) := by
  rcases ho : db.opErr with _ | msg
  · refine ⟨rfl, ?_⟩
    rcases hf : db.docs.find? (fun y => decide (y.id = k)) with _ | d
    · have hno := (find_none_iff db.docs k).mp hf
      by_cases hk : (legacyAutoScaleRule cfg).MetadataFilter = k
      · rw [resolveRule_legacy cfg db k ho hno hk] at hr
        exact Or.inr ⟨hno, hk, (Prod.mk.inj hr).1.symm⟩
      · rw [resolveRule_missing cfg db k ho hno hk] at hr
        exact absurd (Prod.mk.inj hr).2 (by simp)
    · rw [resolveRule_found cfg db k d ho hf] at hr
      exact Or.inl ⟨d, hf, (Prod.mk.inj hr).1.symm⟩
  · have hr2 : resolveRule cfg db k = (autoScaleRule.zeroValue, some (GoError.driver msg)) := by
      unfold resolveRule Db.FindId
      simp [ho]
    rw [hr2] at hr
    exact absurd (Prod.mk.inj hr).2 (by simp)

theorem find_some_mem (docs : List ruleDocument) (k : String) (d : ruleDocument)
    (h : docs.find? (fun y => decide (y.id = k)) = some d) : d ∈ docs ∧ d.id = k := by
  refine ⟨List.mem_of_find?_eq_some h, ?_⟩
  have := List.find?_some h
  simpa using this

/-- C15: when the rule that get(k) resolves, the persisted record with key k or
the matching legacy rule, fails normalization, get(k) returns that
normalization error and no rule, whereas list() on the same store and
configuration returns no error and contains that rule, normalized, under the
filter k, with its error field set to the text of the error. -/
theorem get_rejects_what_list_flags (cfg : Config) (db : Db) (k : String)
    (x : autoScaleRule)
    (hc : (autoScaleRuleCollection cfg db).2 = none)
    (hr : resolveRule cfg db k = (x, none))
    (hn : (x.normalize cfg).2 ≠ none) :
    autoScaleRuleForMetadata cfg db k = (none, (x.normalize cfg).2) ∧
      (listAutoScaleRules cfg db).2 = none ∧
      (x.normalize cfg).1 ∈ (listAutoScaleRules cfg db).1 ∧
      (x.normalize cfg).1.MetadataFilter = k ∧
      (x.normalize cfg).1.Error ≠ "" ∧
      (∀ e : GoError, (x.normalize cfg).2 = some e → (x.normalize cfg).1.Error = e.Error) := by
  obtain ⟨ho, hx⟩ := resolveRule_ok cfg db k x hr
  have hget : autoScaleRuleForMetadata cfg db k = (none, (x.normalize cfg).2) := by
    rcases hnn : (x.normalize cfg).2 with _ | e
    · exact absurd hnn hn
    · exact (get_of_resolved cfg db k x hc hr).2 e hnn
  have hmem : (x.normalize cfg).1 ∈ (listAutoScaleRules cfg db).1 ∧ x.MetadataFilter = k ∧
      x.Error = "" := by
    rcases hx with ⟨d, hd, hxd⟩ | ⟨hno, hk, hxl⟩
    · obtain ⟨hd1, hd2⟩ := find_some_mem db.docs k d hd
      refine ⟨(mem_list_of_readable cfg db hc ho _).mpr (Or.inl ⟨d, hd1, by rw [hxd]⟩), ?_, ?_⟩
      · rw [hxd]; exact hd2
      · rw [hxd]; rfl
    · refine ⟨(mem_list_of_readable cfg db hc ho _).mpr (Or.inr ⟨?_, by rw [hxl]⟩), ?_, ?_⟩
      · rw [hk]; exact hno
      · rw [hxl]; exact hk
      · rw [hxl]; rfl
  refine ⟨hget, by rw [listAutoScaleRules_readable cfg db hc ho], hmem.1, ?_, ?_, ?_⟩
  · rw [(normalize_frame cfg x).1]; exact hmem.2.1
  · exact (normalize_error_flag cfg x hmem.2.2).mpr hn
  · intro e he
    exact (normalize_failure cfg x e he).1

theorem get_rejects_what_list_flags_witness :
    autoScaleRuleForMetadata legacyConfig sampleDb "pool=b" =
        (none, (rulePoolB.marshal.unmarshal.normalize legacyConfig).2) ∧
      (listAutoScaleRules legacyConfig sampleDb).2 = none ∧
      (rulePoolB.marshal.unmarshal.normalize legacyConfig).1 ∈
        (listAutoScaleRules legacyConfig sampleDb).1 ∧
      (rulePoolB.marshal.unmarshal.normalize legacyConfig).1.MetadataFilter = "pool=b" ∧
      (rulePoolB.marshal.unmarshal.normalize legacyConfig).1.Error ≠ "" ∧
      (∀ e : GoError, (rulePoolB.marshal.unmarshal.normalize legacyConfig).2 = some e →
        (rulePoolB.marshal.unmarshal.normalize legacyConfig).1.Error = e.Error) :=
  get_rejects_what_list_flags legacyConfig sampleDb "pool=b" rulePoolB.marshal.unmarshal
    (by decide) (by decide) (by decide)

/-! ## Deletion -/

theorem delete_missing (cfg : Config) (db : Db) (k : String)
    (hc : (autoScaleRuleCollection cfg db).2 = none) (ho : db.opErr = none)
    (hno : ∀ d ∈ db.docs, d.id ≠ k) :
    deleteAutoScaleRule cfg db k = (db, some GoError.ErrNotFound) := by
  unfold deleteAutoScaleRule
  rcases hcc : autoScaleRuleCollection cfg db with ⟨name, _ | e1⟩
  · have hany : ¬ (db.docs.any (fun d => decide (d.id = k)) = true) := by
      rw [List.any_eq_true]
      rintro ⟨d, hd, hdk⟩
      exact hno d hd (by simpa using hdk)
    unfold Db.RemoveId
    simp only [ho]
    rw [if_neg hany]
  · rw [hcc] at hc; simp at hc

theorem delete_success (cfg : Config) (db : Db) (k : String)
    (h : (deleteAutoScaleRule cfg db k).2 = none) :
    (autoScaleRuleCollection cfg db).2 = none ∧ db.opErr = none ∧
      deleteAutoScaleRule cfg db k = ({ db with docs := removeDoc k db.docs }, none) := by
  unfold deleteAutoScaleRule at h ⊢
  rcases hcc : autoScaleRuleCollection cfg db with ⟨name, _ | e1⟩
  · rw [hcc] at h
    simp only at h ⊢
    unfold Db.RemoveId at h ⊢
    rcases ho : db.opErr with _ | msg
    · rw [ho] at h
      simp only at h ⊢
      split_ifs at h ⊢ with hany
      exact ⟨trivial, trivial, rfl⟩
    · rw [ho] at h; simp at h
  · rw [hcc] at h; simp at h

theorem removeDoc_clears (k : String) (docs : List ruleDocument)
    (hnd : (docs.map ruleDocument.id).Nodup) : ∀ x ∈ removeDoc k docs, x.id ≠ k := by
  induction docs with
  | nil => intro x hx; cases hx
  | cons y ys ih =>
    rw [List.map_cons, List.nodup_cons] at hnd
    intro x hx
    unfold removeDoc at hx
    split_ifs at hx with hy
    · intro hxk
      apply hnd.1
      rw [hy, ← hxk]
      exact List.mem_map.mpr ⟨x, hx, rfl⟩
    · rcases List.mem_cons.mp hx with hxy | hxy
      · rw [hxy]; exact hy
      · exact ih hnd.2 x hxy

/-- C16, as stated, fails: with "docker:collection" not set, delete of the
key of the legacy rule, which has no persisted record, returns the error of
`autoScaleRuleCollection`, not the not-found error, and the list() that
follows returns no rule at all. -/
theorem delete_legacy_counterexample :
    (∀ d ∈ emptyDb.docs, d.id ≠ "") ∧
      (legacyAutoScaleRule emptyConfig).MetadataFilter = "" ∧
      deleteAutoScaleRule emptyConfig emptyDb "" =
        (emptyDb, some (GoError.keyNotFound "docker:collection")) ∧
      (deleteAutoScaleRule emptyConfig emptyDb "").2 ≠ some GoError.ErrNotFound ∧
      (listAutoScaleRules emptyConfig (deleteAutoScaleRule emptyConfig emptyDb "").1).1 = [] := by
  decide

/-- C16, amended: when the store can be read (the collection is obtained and
the server answers) and key k has no persisted record but equals the legacy
rule's metadataFilter, delete(k) returns the not-found error and leaves the
store unchanged, and a subsequent list() returns no error and still contains
the normalized legacy rule, with filter k. -/
theorem delete_legacy_only (cfg : Config) (db : Db) (k : String)
    (hc : (autoScaleRuleCollection cfg db).2 = none) (ho : db.opErr = none)
    (hno : ∀ d ∈ db.docs, d.id ≠ k)
    (hk : (legacyAutoScaleRule cfg).MetadataFilter = k) :
    (deleteAutoScaleRule cfg db k).2 = some GoError.ErrNotFound ∧
      (deleteAutoScaleRule cfg db k).1 = db ∧
      (listAutoScaleRules cfg (deleteAutoScaleRule cfg db k).1).2 = none ∧
      ((legacyAutoScaleRule cfg).normalize cfg).1 ∈
        (listAutoScaleRules cfg (deleteAutoScaleRule cfg db k).1).1 ∧
      ((legacyAutoScaleRule cfg).normalize cfg).1.MetadataFilter = k := by
  rw [delete_missing cfg db k hc ho hno]
  refine ⟨rfl, rfl, by rw [listAutoScaleRules_readable cfg db hc ho], ?_, ?_⟩
  · exact (mem_list_of_readable cfg db hc ho _).mpr (Or.inr ⟨by rw [hk]; exact hno, rfl⟩)
  · rw [(normalize_frame cfg _).1]; exact hk

theorem delete_legacy_only_witness :
    (deleteAutoScaleRule legacyConfig emptyDb "pool=b").2 = some GoError.ErrNotFound ∧
      (deleteAutoScaleRule legacyConfig emptyDb "pool=b").1 = emptyDb ∧
      (listAutoScaleRules legacyConfig (deleteAutoScaleRule legacyConfig emptyDb "pool=b").1).2 =
        none ∧
      ((legacyAutoScaleRule legacyConfig).normalize legacyConfig).1 ∈
        (listAutoScaleRules legacyConfig
          (deleteAutoScaleRule legacyConfig emptyDb "pool=b").1).1 ∧
      ((legacyAutoScaleRule legacyConfig).normalize legacyConfig).1.MetadataFilter = "pool=b" :=
  delete_legacy_only legacyConfig emptyDb "pool=b" (by decide) (by decide) (by decide)
    (by decide)

/-- C17: in a store state with pairwise distinct keys, as a keyed collection
has them, that holds a persisted rule whose metadataFilter f is the legacy
rule's filter, after delete(f) succeeds the legacy rule reappears on the next
read: list() returns no error and contains the normalized legacy rule, with
filter f and the configured container count and prevent-rebalance flag,
enabled; and get(f) resolves to the legacy rule rather than to not-found: it
returns the normalized legacy rule when its normalization succeeds and the
normalization error otherwise. -/
theorem legacy_reappears_after_delete (cfg : Config) (db : Db)
    (hnd : (db.docs.map ruleDocument.id).Nodup)
    (_hex : ∃ d ∈ db.docs, d.id = (legacyAutoScaleRule cfg).MetadataFilter)
    (hdel : (deleteAutoScaleRule cfg db (legacyAutoScaleRule cfg).MetadataFilter).2 = none) :
    (listAutoScaleRules cfg
        (deleteAutoScaleRule cfg db (legacyAutoScaleRule cfg).MetadataFilter).1).2 = none ∧
      ((legacyAutoScaleRule cfg).normalize cfg).1 ∈
        (listAutoScaleRules cfg
          (deleteAutoScaleRule cfg db (legacyAutoScaleRule cfg).MetadataFilter).1).1 ∧
      ((legacyAutoScaleRule cfg).normalize cfg).1.MetadataFilter =
        (legacyAutoScaleRule cfg).MetadataFilter ∧
      ((legacyAutoScaleRule cfg).normalize cfg).1.MaxContainerCount =
        cfg.maxContainerCount.getD 0 ∧
      ((legacyAutoScaleRule cfg).normalize cfg).1.PreventRebalance =
        cfg.preventRebalance.getD false ∧
      ((legacyAutoScaleRule cfg).normalize cfg).1.Enabled = true ∧
      resolveRule cfg (deleteAutoScaleRule cfg db (legacyAutoScaleRule cfg).MetadataFilter).1
        (legacyAutoScaleRule cfg).MetadataFilter = (legacyAutoScaleRule cfg, none) ∧
      (((legacyAutoScaleRule cfg).normalize cfg).2 = none →
        autoScaleRuleForMetadata cfg
            (deleteAutoScaleRule cfg db (legacyAutoScaleRule cfg).MetadataFilter).1
            (legacyAutoScaleRule cfg).MetadataFilter =
          (some ((legacyAutoScaleRule cfg).normalize cfg).1, none)) ∧
      (∀ e : GoError, ((legacyAutoScaleRule cfg).normalize cfg).2 = some e →
        autoScaleRuleForMetadata cfg
            (deleteAutoScaleRule cfg db (legacyAutoScaleRule cfg).MetadataFilter).1
            (legacyAutoScaleRule cfg).MetadataFilter = (none, some e)) := by
  obtain ⟨hc, ho, hd⟩ := delete_success cfg db _ hdel
  rw [hd]
  have hc2 : (autoScaleRuleCollection cfg
      { db with docs := removeDoc (legacyAutoScaleRule cfg).MetadataFilter db.docs }).2 = none := hc
  have ho2 : ({ db with docs := removeDoc (legacyAutoScaleRule cfg).MetadataFilter db.docs } :
      Db).opErr = none := ho
  have hno : ∀ d ∈ ({ db with
      docs := (removeDoc (legacyAutoScaleRule cfg).MetadataFilter db.docs) } : Db).docs,
      d.id ≠ (legacyAutoScaleRule cfg).MetadataFilter :=
    removeDoc_clears _ db.docs hnd
  obtain ⟨f1, f2, f3, f4⟩ := normalize_frame cfg (legacyAutoScaleRule cfg)
  have hr := resolveRule_legacy cfg _ _ ho2 hno rfl
  refine ⟨by rw [listAutoScaleRules_readable cfg _ hc2 ho2], ?_, f1, f2, f4, f3, hr, ?_⟩
  · exact (mem_list_of_readable cfg _ hc2 ho2 _).mpr (Or.inr ⟨hno, rfl⟩)
  · exact get_of_resolved cfg _ _ _ hc2 hr

theorem legacy_reappears_after_delete_witness :
    (listAutoScaleRules legacyConfig
        (deleteAutoScaleRule legacyConfig sampleDb
          (legacyAutoScaleRule legacyConfig).MetadataFilter).1).2 = none ∧
      ((legacyAutoScaleRule legacyConfig).normalize legacyConfig).1 ∈
        (listAutoScaleRules legacyConfig
          (deleteAutoScaleRule legacyConfig sampleDb
            (legacyAutoScaleRule legacyConfig).MetadataFilter).1).1 ∧
      ((legacyAutoScaleRule legacyConfig).normalize legacyConfig).1.MetadataFilter =
        (legacyAutoScaleRule legacyConfig).MetadataFilter ∧
      ((legacyAutoScaleRule legacyConfig).normalize legacyConfig).1.MaxContainerCount =
        legacyConfig.maxContainerCount.getD 0 ∧
      ((legacyAutoScaleRule legacyConfig).normalize legacyConfig).1.PreventRebalance =
        legacyConfig.preventRebalance.getD false ∧
      ((legacyAutoScaleRule legacyConfig).normalize legacyConfig).1.Enabled = true ∧
      resolveRule legacyConfig
        (deleteAutoScaleRule legacyConfig sampleDb
          (legacyAutoScaleRule legacyConfig).MetadataFilter).1
        (legacyAutoScaleRule legacyConfig).MetadataFilter =
          (legacyAutoScaleRule legacyConfig, none) ∧
      (((legacyAutoScaleRule legacyConfig).normalize legacyConfig).2 = none →
        autoScaleRuleForMetadata legacyConfig
            (deleteAutoScaleRule legacyConfig sampleDb
              (legacyAutoScaleRule legacyConfig).MetadataFilter).1
            (legacyAutoScaleRule legacyConfig).MetadataFilter =
          (some ((legacyAutoScaleRule legacyConfig).normalize legacyConfig).1, none)) ∧
      (∀ e : GoError, ((legacyAutoScaleRule legacyConfig).normalize legacyConfig).2 = some e →
        autoScaleRuleForMetadata legacyConfig
            (deleteAutoScaleRule legacyConfig sampleDb
              (legacyAutoScaleRule legacyConfig).MetadataFilter).1
            (legacyAutoScaleRule legacyConfig).MetadataFilter = (none, some e)) :=
  legacy_reappears_after_delete legacyConfig sampleDb (by decide) (by decide) (by decide)

/-! ## Frame and idempotence of normalize -/

theorem normalize_memory (cfg : Config) (r : autoScaleRule) :
    (r.normalize cfg).1.MaxMemoryRatio =
      if r.ScaleDownRatio.eq Float32.zero = false ∧ r.ScaleDownRatio.le Float32.one = true then
        r.MaxMemoryRatio
      else if r.MaxMemoryRatio.eq Float32.zero = true then
        (cfg.maxUsedMemory.getD Float64.zero).toFloat32
      else r.MaxMemoryRatio := by
  unfold autoScaleRule.normalize
  split_ifs with h0 h1 h2 h3 h4 h5 h6 <;>
    first
    | rfl
    | (rw [normalizeMemory_memory]; simp_all)
    | simp_all

/-- C18: for every rule and configuration, normalize leaves metadataFilter,
maxContainerCount, enabled and preventRebalance unchanged; it leaves
maxMemoryRatio unchanged unless that was 0, and then sets it, once the scale
down ratio check is passed, to the configured global default, which is 0 when
the key is absent; and whenever it succeeds it leaves the error field exactly
as it was. -/
theorem normalize_frame_effect (cfg : Config) (r : autoScaleRule) :
    (r.normalize cfg).1.MetadataFilter = r.MetadataFilter ∧
      (r.normalize cfg).1.MaxContainerCount = r.MaxContainerCount ∧
      (r.normalize cfg).1.Enabled = r.Enabled ∧
      (r.normalize cfg).1.PreventRebalance = r.PreventRebalance ∧
      (r.MaxMemoryRatio.eq Float32.zero = false →
        (r.normalize cfg).1.MaxMemoryRatio = r.MaxMemoryRatio) ∧
      ((r.normalize cfg).1.MaxMemoryRatio = r.MaxMemoryRatio ∨
        (r.normalize cfg).1.MaxMemoryRatio =
          (cfg.maxUsedMemory.getD Float64.zero).toFloat32) ∧
      (r.MaxMemoryRatio.eq Float32.zero = true →
        (r.ScaleDownRatio.eq Float32.zero = true ∨ r.ScaleDownRatio.le Float32.one = false) →
        (r.normalize cfg).1.MaxMemoryRatio =
          (cfg.maxUsedMemory.getD Float64.zero).toFloat32) ∧
      (cfg.maxUsedMemory = none →
        (cfg.maxUsedMemory.getD Float64.zero).toFloat32 = Float32.zero) ∧
      ((r.normalize cfg).2 = none → (r.normalize cfg).1.Error = r.Error) := by
  obtain ⟨f1, f2, f3, f4⟩ := normalize_frame cfg r
  have hm := normalize_memory cfg r
  refine ⟨f1, f2, f3, f4, ?_, ?_, ?_, ?_, normalize_error_kept cfg r⟩
  · intro hz
    rw [hm]
    split_ifs with h1 h2
    · rfl
    · rw [hz] at h2; simp at h2
    · rfl
  · rw [hm]
    split_ifs with h1 h2
    · exact Or.inl rfl
    · exact Or.inr rfl
    · exact Or.inl rfl
  · intro hz hp
    rw [hm]
    rw [if_neg, if_pos hz]
    rintro ⟨a, b⟩
    rcases hp with hp | hp
    · rw [a] at hp; simp at hp
    · rw [b] at hp; simp at hp
  · intro hn
    rw [hn, Option.getD_none]
    exact toFloat32_zero

theorem normalize_frame_effect_witness :
    (ruleMemoryNaN.normalize memoryConfig).1.MetadataFilter = ruleMemoryNaN.MetadataFilter ∧
      (ruleMemoryNaN.normalize memoryConfig).1.MaxContainerCount =
        ruleMemoryNaN.MaxContainerCount ∧
      (ruleMemoryNaN.normalize memoryConfig).1.Enabled = ruleMemoryNaN.Enabled ∧
      (ruleMemoryNaN.normalize memoryConfig).1.PreventRebalance =
        ruleMemoryNaN.PreventRebalance ∧
      (ruleMemoryNaN.MaxMemoryRatio.eq Float32.zero = false →
        (ruleMemoryNaN.normalize memoryConfig).1.MaxMemoryRatio =
          ruleMemoryNaN.MaxMemoryRatio) ∧
      ((ruleMemoryNaN.normalize memoryConfig).1.MaxMemoryRatio = ruleMemoryNaN.MaxMemoryRatio ∨
        (ruleMemoryNaN.normalize memoryConfig).1.MaxMemoryRatio =
          (memoryConfig.maxUsedMemory.getD Float64.zero).toFloat32) ∧
      (ruleMemoryNaN.MaxMemoryRatio.eq Float32.zero = true →
        (ruleMemoryNaN.ScaleDownRatio.eq Float32.zero = true ∨
          ruleMemoryNaN.ScaleDownRatio.le Float32.one = false) →
        (ruleMemoryNaN.normalize memoryConfig).1.MaxMemoryRatio =
          (memoryConfig.maxUsedMemory.getD Float64.zero).toFloat32) ∧
      (memoryConfig.maxUsedMemory = none →
        (memoryConfig.maxUsedMemory.getD Float64.zero).toFloat32 = Float32.zero) ∧
      ((ruleMemoryNaN.normalize memoryConfig).2 = none →
        (ruleMemoryNaN.normalize memoryConfig).1.Error = ruleMemoryNaN.Error) :=
  normalize_frame_effect memoryConfig ruleMemoryNaN

theorem normalizeMemory_fixed (cfg : Config) (r : autoScaleRule)
    (h1 : r.MaxMemoryRatio.eq Float32.zero = true →
      r.MaxMemoryRatio = (cfg.maxUsedMemory.getD Float64.zero).toFloat32) :
    r.normalizeMemory cfg =
      if (r.Enabled && decide (r.MaxContainerCount ≤ 0) &&
          (decide (cfg.totalMemoryMetadata.getD "" = "") ||
            r.MaxMemoryRatio.le Float32.zero)) = true then
        ({ r with Error := infoMessage }, some (GoError.errorf infoMessage))
      else (r, none) := by
  have hr : (if r.MaxMemoryRatio.eq Float32.zero = true then
      ({ r with MaxMemoryRatio := (cfg.maxUsedMemory.getD Float64.zero).toFloat32 } :
        autoScaleRule) else r) = r := by
    split_ifs with hm
    · rw [← h1 hm]
    · rfl
  unfold autoScaleRule.normalizeMemory
  simp only
  rw [hr]
  rfl

theorem normalizeMemory_idempotent (cfg : Config) (r : autoScaleRule) :
    (r.normalizeMemory cfg).1.normalizeMemory cfg = r.normalizeMemory cfg := by
  obtain ⟨r1, h1, h2⟩ := normalizeMemory_cases cfg r
  rw [h2]
  split_ifs with hc
  · have hf := normalizeMemory_fixed cfg { r1 with Error := infoMessage } h1
    rw [if_pos hc] at hf
    exact hf
  · have hf := normalizeMemory_fixed cfg r1 h1
    rw [if_neg hc] at hf
    exact hf

/-- C19: under a fixed configuration normalize is idempotent: normalize applied
to the rule that a first normalize produced returns the same outcome, success
or the same error, and leaves every field of the rule as the first application
left it. -/
theorem normalize_idempotent (cfg : Config) (r : autoScaleRule) :
    (r.normalize cfg).1.normalize cfg = r.normalize cfg := by
  have hc : Float32.c1333.eq Float32.zero = false := by decide
  have hl : Float32.c1333.le Float32.one = false := by decide
  by_cases h0 : r.ScaleDownRatio.eq Float32.zero = true
  · have hn : r.normalize cfg =
        autoScaleRule.normalizeMemory cfg { r with ScaleDownRatio := Float32.c1333 } := by
      unfold autoScaleRule.normalize
      rw [if_pos h0]
    have hr := normalizeMemory_ratio cfg { r with ScaleDownRatio := Float32.c1333 }
    rw [hn]
    rw [autoScaleRule.normalize]
    simp only [hr, hc, hl, Bool.false_eq_true, if_false]
    exact normalizeMemory_idempotent cfg _
  · by_cases h1 : r.ScaleDownRatio.le Float32.one = true
    · have hn : r.normalize cfg =
          ({ r with Error := ratioMessage r.ScaleDownRatio },
            some (GoError.errorf (ratioMessage r.ScaleDownRatio))) := by
        unfold autoScaleRule.normalize
        rw [if_neg h0, if_pos h1]
        rfl
      rw [hn]
      unfold autoScaleRule.normalize
      simp only
      rw [if_neg h0, if_pos h1]
      rfl
    · have hn : r.normalize cfg = autoScaleRule.normalizeMemory cfg r := by
        unfold autoScaleRule.normalize
        rw [if_neg h0, if_neg h1]
      have hr := normalizeMemory_ratio cfg r
      rw [hn]
      rw [autoScaleRule.normalize]
      simp only [hr, h0, h1, if_false]
      exact normalizeMemory_idempotent cfg _

/-! ## Agreement of list and get -/

theorem get_success_resolved (cfg : Config) (db : Db) (k : String) (r : autoScaleRule)
    (hc : (autoScaleRuleCollection cfg db).2 = none)
    (h : autoScaleRuleForMetadata cfg db k = (some r, none)) :
    ∃ x : autoScaleRule, resolveRule cfg db k = (x, none) ∧
      (x.normalize cfg).2 = none ∧ r = (x.normalize cfg).1 := by
  rw [get_eq_resolve cfg db k hc] at h
  rcases hr : resolveRule cfg db k with ⟨x, _ | e⟩
  · rw [hr] at h
    simp only at h
    rcases hn : x.normalize cfg with ⟨g, _ | e2⟩
    · rw [hn] at h
      simp only [Prod.mk.injEq, Option.some.injEq, and_true] at h
      exact ⟨x, rfl, by rw [hn], by rw [hn]; exact h.symm⟩
    · rw [hn] at h; simp at h
  · rw [hr] at h; simp at h

theorem get_of_listed (cfg : Config) (db : Db) (k : String) (x : autoScaleRule)
    (hc : (autoScaleRuleCollection cfg db).2 = none)
    (hr : resolveRule cfg db k = (x, none)) (hx : x.Error = "")
    (he : (x.normalize cfg).1.Error = "") :
    autoScaleRuleForMetadata cfg db k = (some (x.normalize cfg).1, none) := by
  have hn : (x.normalize cfg).2 = none := by
    by_contra hne
    exact (normalize_error_flag cfg x hx).mpr hne he
  exact (get_of_resolved cfg db k x hc hr).1 hn

/-- C20: list() and get() agree on every key. In a store state with pairwise
distinct keys, for every configuration, key k and rule r: get(k) succeeds with
r if and only if r is a rule that list() returns with metadataFilter k and an
empty error field; so get(k) succeeds exactly when list() has such a rule, and
that rule is the one get(k) returns, field by field. -/
theorem list_get_agree (cfg : Config) (db : Db) (k : String)
    (hnd : (db.docs.map ruleDocument.id).Nodup) :
    (∀ r : autoScaleRule, autoScaleRuleForMetadata cfg db k = (some r, none) ↔
      (r ∈ (listAutoScaleRules cfg db).1 ∧ r.MetadataFilter = k ∧ r.Error = "")) ∧
    ((∃ r : autoScaleRule, autoScaleRuleForMetadata cfg db k = (some r, none)) ↔
      ∃ g ∈ (listAutoScaleRules cfg db).1, g.MetadataFilter = k ∧ g.Error = "") := by
  have main : ∀ r : autoScaleRule, autoScaleRuleForMetadata cfg db k = (some r, none) ↔
      (r ∈ (listAutoScaleRules cfg db).1 ∧ r.MetadataFilter = k ∧ r.Error = "") := by
    intro r
    by_cases hread : (autoScaleRuleCollection cfg db).2 = none ∧ db.opErr = none
    · obtain ⟨hc, ho⟩ := hread
      constructor
      · intro h
        obtain ⟨x, hr, hn, hrx⟩ := get_success_resolved cfg db k r hc h
        obtain ⟨_, hx⟩ := resolveRule_ok cfg db k x hr
        rcases hx with ⟨d, hd, hxd⟩ | ⟨hno, hk, hxl⟩
        · obtain ⟨hd1, hd2⟩ := find_some_mem db.docs k d hd
          refine ⟨(mem_list_of_readable cfg db hc ho r).mpr (Or.inl ⟨d, hd1, by rw [hrx, hxd]⟩),
            ?_, ?_⟩
          · rw [hrx, (normalize_frame cfg x).1, hxd]; exact hd2
          · rw [hrx, normalize_error_kept cfg x hn, hxd]; rfl
        · refine ⟨(mem_list_of_readable cfg db hc ho r).mpr
            (Or.inr ⟨by rw [hk]; exact hno, by rw [hrx, hxl]⟩), ?_, ?_⟩
          · rw [hrx, (normalize_frame cfg x).1, hxl]; exact hk
          · rw [hrx, normalize_error_kept cfg x hn, hxl]; rfl
      · rintro ⟨hmem, hkey, herr⟩
        rcases (mem_list_of_readable cfg db hc ho r).mp hmem with ⟨d, hd, hrd⟩ | ⟨hno, hrl⟩
        · have hdk : d.id = k := by
            rw [← hkey, hrd, (normalize_frame cfg d.unmarshal).1]; rfl
          obtain ⟨d2, hf, hd2, hd2k⟩ := find_of_exists db.docs k ⟨d, hd, hdk⟩
          have hdd : d2 = d :=
            List.inj_on_of_nodup_map hnd hd2 hd (by rw [hd2k, hdk])
          rw [hdd] at hf
          have hr := resolveRule_found cfg db k d ho hf
          rw [hrd] at herr ⊢
          exact get_of_listed cfg db k d.unmarshal hc hr rfl herr
        · have hk : (legacyAutoScaleRule cfg).MetadataFilter = k := by
            rw [← hkey, hrl, (normalize_frame cfg _).1]
          have hr := resolveRule_legacy cfg db k ho (by rw [← hk]; exact hno) hk
          rw [hrl] at herr ⊢
          exact get_of_listed cfg db k _ hc hr rfl herr
    · have hun : (autoScaleRuleCollection cfg db).2 ≠ none ∨ db.opErr ≠ none := by
        by_cases h1 : (autoScaleRuleCollection cfg db).2 = none
        · exact Or.inr (fun h2 => hread ⟨h1, h2⟩)
        · exact Or.inl h1
      have hg := get_unreadable cfg db k hun
      have hl := listAutoScaleRules_unreadable cfg db hun
      constructor
      · intro h
        rw [h] at hg
        simp at hg
      · rintro ⟨hmem, _, _⟩
        rw [hl] at hmem
        cases hmem
  refine ⟨main, ?_⟩
  constructor
  · rintro ⟨r, hr⟩
    obtain ⟨a, b, c⟩ := (main r).mp hr
    exact ⟨r, a, b, c⟩
  · rintro ⟨g, a, b, c⟩
    exact ⟨g, (main g).mpr ⟨a, b, c⟩⟩

theorem list_get_agree_witness :
    (∀ r : autoScaleRule, autoScaleRuleForMetadata legacyConfig sampleDb "pool=a" =
        (some r, none) ↔
      (r ∈ (listAutoScaleRules legacyConfig sampleDb).1 ∧ r.MetadataFilter = "pool=a" ∧
        r.Error = "")) ∧
    ((∃ r : autoScaleRule, autoScaleRuleForMetadata legacyConfig sampleDb "pool=a" =
        (some r, none)) ↔
      ∃ g ∈ (listAutoScaleRules legacyConfig sampleDb).1,
        g.MetadataFilter = "pool=a" ∧ g.Error = "") :=
  list_get_agree legacyConfig sampleDb "pool=a" (by decide)

end AutoScale
